import Mathlib

/-!
Verification development for the claude-code-bridge repository.

The TypeScript source is embedded shallowly:

* JSON documents are modelled by the inductive `Json` (JSON.stringify /
  JSON.parse are modelled at the document level: stringify produces the
  document that the emitted text denotes, and parse of that text returns
  the same document).  JS numbers are modelled by `Int` (the values the
  program actually stores in these fields are integral millisecond
  timestamps, counters and sizes).
* JS `Map` objects (insertion ordered, key unique) are modelled by
  association lists `List (String × α)` with the operations `getK`,
  `setK`, `delK` below; `Map.set` replaces in place, `Map.delete`
  removes the entry.
* Promise resolvers are modelled by an append-only outcome log: each
  `resolve`/`reject` call appends one entry keyed by the task / request
  id, so "settled exactly once" is a statement about that log.
* JS strings are modelled by `String`; `toLowerCase`, substring search
  and `localeCompare` are modelled on the underlying character list
  (the spec allows locale-independent byte order for path comparison).
-/

/-- JSON documents, as produced by JSON.parse / consumed by JSON.stringify. -/
inductive Json where
  | null
  | bool (b : Bool)
  | num (n : Int)
  | str (s : String)
  | arr (elems : List Json)
  | obj (fields : List (String × Json))

/-- Lookup in an association list modelling a JS Map / object: first entry
with the key wins (keys are unique in a real Map). -/
def getK {α : Type} : List (String × α) → String → Option α
  | [], _ => none
  | (k, v) :: t, key => if k = key then some v else getK t key

/-- Map.set: replace the entry in place if the key is present, else append. -/
def setK {α : Type} : List (String × α) → String → α → List (String × α)
  | [], key, v => [(key, v)]
  | (k, w) :: t, key, v =>
    if k = key then (key, v) :: t else (k, w) :: setK t key v

/-- Map.delete: remove every entry with the key (a real Map holds at most one). -/
def delK {α : Type} : List (String × α) → String → List (String × α)
  | [], _ => []
  | (k, v) :: t, key => if k = key then delK t key else (k, v) :: delK t key

/-- Number of entries stored under a key. -/
def countK {α : Type} (l : List (String × α)) (key : String) : Nat :=
  (l.filter (fun p => p.1 = key)).length

/-- The Map invariant: every key appears at most once. -/
def keysNodup {α : Type} (l : List (String × α)) : Prop :=
  (l.map Prod.fst).Nodup

-- ===========================================================================
-- Character-list string helpers (JS string primitives on the char level)
-- ===========================================================================

/-- ASCII lowering of one character; models the fragment of
String.prototype.toLowerCase the ranking code exercises. -/
def lowerCh (c : Char) : Char :=
  if 65 ≤ c.toNat ∧ c.toNat ≤ 90 then Char.ofNat (c.toNat + 32) else c

/-- Lowercased string (JS s.toLowerCase() on the modelled fragment). -/
def lowerStr (s : String) : String := ⟨s.data.map lowerCh⟩

/-- Does the pattern occur at the start of the list? -/
def leadsWith : List Char → List Char → Bool
  | _, [] => true
  | [], _ :: _ => false
  | a :: as, b :: bs => a = b && leadsWith as bs

/-- Substring test (JS String.prototype.includes) on character lists. -/
def hasSub : List Char → List Char → Bool
  | [], pat => pat.isEmpty
  | c :: t, pat => leadsWith (c :: t) pat || hasSub t pat

/-- A string contains another as a substring (JS includes). -/
def strIncludes (s pat : String) : Bool := hasSub s.data pat.data

/-- Lexicographic less-or-equal on character lists, by code point: the
locale-independent byte order the spec allows for localeCompare. -/
def lexLe : List Char → List Char → Bool
  | [], _ => true
  | _ :: _, [] => false
  | a :: as, b :: bs =>
    if a.toNat < b.toNat then true
    else if b.toNat < a.toNat then false
    else lexLe as bs

/-- String comparison (localeCompare ≤ 0 in the modelled ordering). -/
def strLe (a b : String) : Bool := lexLe a.data b.data

-- ===========================================================================
-- Protocol data model (src/bridge/protocol.ts)
-- ===========================================================================

/-- The closed MessageType enum of the protocol. -/
inductive MessageType where
  | request
  | response
  | context_sync
  | task_delegate
  | notification
deriving DecidableEq, Repr

/-- FileChunkSchema. -/
structure FileChunk where
  path : String
  content : String
  startLine : Option Int := none
  endLine : Option Int := none
  language : Option String := none
deriving DecidableEq, Repr

/-- The type field of DirectoryTreeSchema: z.enum(["file", "directory"]). -/
inductive TreeEntryType where
  | file
  | directory
deriving DecidableEq, Repr

/-- DirectoryTreeSchema (recursive). -/
inductive DirectoryTree where
  | node (name : String) (type : TreeEntryType) (children : Option (List DirectoryTree))

/-- ArtifactSchema action enum. -/
inductive ArtifactAction where
  | created
  | modified
  | deleted
deriving DecidableEq, Repr

/-- ArtifactSchema. -/
structure Artifact where
  path : String
  action : ArtifactAction
  diff : Option String := none
deriving DecidableEq, Repr

/-- ContextSchema.  vars models the source field named variables (a word
Lean reserves): z.record(z.any()), a JSON object with arbitrary values,
modelled as an association list. -/
structure Context where
  files : Option (List FileChunk) := none
  tree : Option DirectoryTree := none
  summary : Option String := none
  vars : Option (List (String × Json)) := none

/-- TaskRequestSchema scope enum. -/
inductive TaskScope where
  | execute
  | analyze
  | suggest
deriving DecidableEq, Repr

/-- TaskRequestSchema returnFormat enum. -/
inductive ReturnFormat where
  | full
  | summary
  | diff
deriving DecidableEq, Repr

/-- TaskRequestSchema.  timeout is z.number() (an integral millisecond
count in every use), data is z.record(z.unknown()). -/
structure TaskRequest where
  id : String
  description : String
  scope : TaskScope
  constraints : Option (List String) := none
  returnFormat : Option ReturnFormat := none
  timeout : Option Int := none
  data : Option (List (String × Json)) := none

/-- TaskResultSchema.  data is z.any(), which also accepts an absent key,
hence Option Json with none meaning the key is absent. -/
structure TaskResult where
  taskId : Option String := none
  success : Bool
  data : Option Json := none
  artifacts : Option (List Artifact) := none
  followUp : Option String := none
  error : Option String := none

/-- BridgeMessageSchema: the message envelope. -/
structure BridgeMessage where
  id : String
  type : MessageType
  source : String
  timestamp : Int
  context : Option Context := none
  task : Option TaskRequest := none
  result : Option TaskResult := none

-- ===========================================================================
-- Transport model (src/transport/websocket.ts)
-- ===========================================================================

/-- The ConnectionState enum of src/transport/interface.ts: DISCONNECTED,
CONNECTING, CONNECTED, RECONNECTING.  The source gives each member a
string value equal to its name; the strings carry no further structure, so
the enum is modelled by its members. -/
inductive ConnectionState where
  | disconnected
  | connecting
  | connected
  | reconnecting
deriving DecidableEq, Repr

/-- The AuthType union of src/transport/interface.ts. -/
inductive AuthType where
  | none
  | token
  | password
  | ip
  | combined
deriving DecidableEq, Repr

/-- The AuthConfig interface of src/transport/interface.ts. -/
structure AuthConfig where
  type : AuthType
  token : Option String := Option.none
  password : Option String := Option.none
  allowedIps : Option (List String) := Option.none
  requireAll : Option Bool := Option.none
deriving DecidableEq, Repr

/-- The TLSConfig interface of src/transport/interface.ts (certificate
paths and flags; their contents are outside the transport model). -/
structure TLSConfig where
  cert : Option String := none
  key : Option String := none
  ca : Option String := none
  rejectUnauthorized : Option Bool := none
  passphrase : Option String := none
deriving DecidableEq, Repr

/-- The ConnectionConfig interface of src/transport/interface.ts: url (or
host + port), the optional reconnect switch with reconnectInterval and
maxReconnectAttempts, and the auth and tls sub-configurations.
websocket.ts reads url/host/port in buildUrl and reconnect /
reconnectInterval / maxReconnectAttempts in shouldReconnect and
scheduleReconnect. -/
structure ConnectionConfig where
  url : Option String := none
  host : Option String := none
  port : Option Int := none
  reconnect : Option Bool := none
  reconnectInterval : Option Int := none
  maxReconnectAttempts : Option Nat := none
  auth : Option AuthConfig := none
  tls : Option TLSConfig := none
deriving DecidableEq, Repr

/-- DEFAULT_MAX_RECONNECT_ATTEMPTS. -/
def DEFAULT_MAX_RECONNECT_ATTEMPTS : Nat := 10

/-- The mutable state of a WebSocketTransport that send/disconnect/flush
read: connection state, the ws handle (modelled by presence), the saved
config, the reconnection counter, the intentional-disconnect flag and the
offline message queue. -/
structure TransportState where
  state : ConnectionState
  hasWs : Bool
  config : Option ConnectionConfig
  reconnectAttempts : Nat
  intentionalDisconnect : Bool
  messageQueue : List BridgeMessage

/-- WebSocketTransport.shouldReconnect: false unless the saved config has
reconnect enabled (the optional flag is falsy when absent); then true
while the attempt counter is below maxReconnectAttempts (default 10).
Note it does not consult intentionalDisconnect. -/
def shouldReconnect (t : TransportState) : Bool :=
  match t.config with
  | none => false
  | some c =>
    if ¬ c.reconnect.getD false then false
    else t.reconnectAttempts < c.maxReconnectAttempts.getD DEFAULT_MAX_RECONNECT_ATTEMPTS

/-- WebSocketTransport.queueMessage: push to the back of the queue. -/
def queueMessage (q : List BridgeMessage) (m : BridgeMessage) : List BridgeMessage :=
  q ++ [m]

/-- Result of a send call. -/
inductive SendOutcome where
  | sentImmediate
  | queued
  | notConnectedError
deriving DecidableEq, Repr

/-- WebSocketTransport.send: if a socket exists and state is CONNECTED,
write immediately; else if shouldReconnect() and state is RECONNECTING or
DISCONNECTED, queue; else reject with the "Not connected" error. -/
def send (t : TransportState) (m : BridgeMessage) : SendOutcome × TransportState :=
  if t.hasWs = true ∧ t.state = ConnectionState.connected then
    (SendOutcome.sentImmediate, t)
  else if shouldReconnect t = true ∧
      (t.state = ConnectionState.reconnecting ∨ t.state = ConnectionState.disconnected) then
    (SendOutcome.queued, { t with messageQueue := queueMessage t.messageQueue m })
  else
    (SendOutcome.notConnectedError, t)

/-- WebSocketTransport.disconnect: set the intentional flag, clear the
reconnect timer and heartbeat (not modelled), drop the queue, and close,
ending in DISCONNECTED.  When no socket exists or the state is already
DISCONNECTED it returns early keeping the (null) socket reference. -/
def disconnect (t : TransportState) : TransportState :=
  let t1 := { t with intentionalDisconnect := true, messageQueue := [] }
  if t1.hasWs = false ∨ t1.state = ConnectionState.disconnected then
    { t1 with state := ConnectionState.disconnected }
  else
    { t1 with state := ConnectionState.disconnected, hasWs := false }

/-- WebSocketTransport.flushMessageQueue, as a function of the per-message
send success (the ok oracle stands for sendImmediate resolving): the queue
is emptied, messages are sent serially in order; on the first failure the
failing message is unshifted onto the (emptied) queue and the loop breaks.
Returns (messages sent, queue afterwards). -/
def flushMessageQueue (ok : BridgeMessage → Bool) :
    List BridgeMessage → List BridgeMessage × List BridgeMessage
  | [] => ([], [])
  | m :: rest =>
    if ok m then
      let r := flushMessageQueue ok rest
      (m :: r.1, r.2)
    else ([], [m])

/-- A config with reconnection enabled (as Bridge.connectToPeer passes:
a url, reconnect true, interval 1000, max attempts 10). -/
def reconnectingConfig : ConnectionConfig :=
  { url := some "ws://127.0.0.1:8765", reconnect := some true,
    reconnectInterval := some 1000, maxReconnectAttempts := some 10 }

/-- A transport that completed connect() successfully: CONNECTED, socket
present, fresh attempt counter, no intentional disconnect, empty queue. -/
def connectedTransport : TransportState :=
  { state := ConnectionState.connected, hasWs := true,
    config := some reconnectingConfig, reconnectAttempts := 0,
    intentionalDisconnect := false, messageQueue := [] }

/-- A minimal schema-shaped message used as concrete input. -/
def dummyMessage : BridgeMessage :=
  { id := "11111111-1111-1111-1111-111111111111", type := MessageType.notification,
    source := "test", timestamp := 0 }

/-- Messages used as concrete flush inputs. -/
def msgA : BridgeMessage :=
  { id := "m1", type := MessageType.notification, source := "s", timestamp := 0 }

def msgB : BridgeMessage :=
  { id := "m2", type := MessageType.notification, source := "s", timestamp := 0 }

def msgC : BridgeMessage :=
  { id := "m3", type := MessageType.notification, source := "s", timestamp := 0 }

-- ===========================================================================
-- Bridge core model (src/utils/index.ts: Bridge)
-- ===========================================================================

/-- A pendingTasks entry: {taskId, peerId, resolve, reject, timeoutId}.
The resolver pair is modelled by the outcome log of BridgeState; timeoutMs
is the timeout value captured by the timer closure of delegateTask. -/
structure PendingTask where
  taskId : String
  peerId : String
  timeoutMs : Int
deriving DecidableEq, Repr

/-- A pendingContextRequests entry: {requestId, peerId, resolve, reject,
timeoutId}; timeoutMs is the captured requestContext timeout (default 30000). -/
structure PendingContextRequest where
  requestId : String
  peerId : String
  timeoutMs : Int
deriving DecidableEq, Repr

/-- A settlement of a delegated task's promise. -/
inductive TaskOutcome where
  | resolved (r : TaskResult)
  | rejected (msg : String)

/-- A settlement of a context request's promise. -/
inductive CtxOutcome where
  | resolvedFiles (files : List FileChunk)
  | rejected (msg : String)

/-- The Bridge state the modelled operations read and write: lifecycle
flags, config.taskTimeout, the peer registry (ids in insertion order), the
two pending tables, the two dynamic forward maps (forward:taskId and
ctxfwd:requestId properties), and the promise-settlement logs. -/
structure BridgeState where
  started : Bool
  autoSyncOn : Bool
  cfgTaskTimeout : Option Int
  peers : List String
  pendingTasks : List (String × PendingTask)
  pendingContextRequests : List (String × PendingContextRequest)
  forwardTasks : List (String × String)
  forwardContexts : List (String × String)
  taskOutcomes : List (String × TaskOutcome)
  ctxOutcomes : List (String × CtxOutcome)

/-- The timeout delegateTask computes: task.timeout ?? config.taskTimeout
?? 300000. -/
def chosenTimeout (task : TaskRequest) (cfgTaskTimeout : Option Int) : Int :=
  match task.timeout with
  | some t => t
  | none =>
    match cfgTaskTimeout with
    | some t => t
    | none => 300000

/-- Bridge.delegateTask: pick the target (argument, else first peer, else
fail), validate it, compute timeout = task.timeout ?? config.taskTimeout ??
300000, store the pending entry, send.  sendErr models sendToPeer failing:
its catch clears the timer, removes the entry and rejects with the error. -/
def delegateTask (s : BridgeState) (task : TaskRequest) (peerId? : Option String)
    (sendErr : Option String) : Except String BridgeState :=
  let pid? : Option String :=
    match peerId? with
    | some p => some p
    | none =>
      match s.peers with
      | [] => none
      | p :: _ => some p
  match pid? with
  | none => Except.error "No peers connected to delegate task to"
  | some pid =>
    if ¬ s.peers.contains pid then Except.error ("Peer not found: " ++ pid)
    else
      let timeout : Int := chosenTimeout task s.cfgTaskTimeout
      let s1 := { s with
        pendingTasks := setK s.pendingTasks task.id ⟨task.id, pid, timeout⟩ }
      match sendErr with
      | none => Except.ok s1
      | some e =>
        Except.ok { s1 with
          pendingTasks := delK s1.pendingTasks task.id,
          taskOutcomes := s1.taskOutcomes ++ [(task.id, TaskOutcome.rejected e)] }

/-- The rejection message of delegateTask's timeout timer. -/
def taskTimeoutMsg (taskId : String) (timeoutMs : Int) : String :=
  "Task '" ++ taskId ++ "' timed out after " ++ toString timeoutMs ++ "ms"

/-- The timer set by delegateTask firing: if the entry is still pending,
remove it and reject with the timeout message; otherwise do nothing. -/
def fireTaskTimeout (s : BridgeState) (taskId : String) : BridgeState :=
  match getK s.pendingTasks taskId with
  | none => s
  | some p =>
    { s with
      pendingTasks := delK s.pendingTasks taskId,
      taskOutcomes := s.taskOutcomes ++
        [(taskId, TaskOutcome.rejected (taskTimeoutMsg taskId p.timeoutMs))] }

/-- Bridge.handleTaskResponse: a forwarded response goes back to the
recorded originator (and the mapping is removed); else a matching pending
entry is removed, its timer cleared, and the promise resolved with the
result; else the response is logged and dropped. -/
def handleTaskResponse (s : BridgeState) (taskId : String) (result : TaskResult) :
    BridgeState :=
  match getK s.forwardTasks taskId with
  | some _ => { s with forwardTasks := delK s.forwardTasks taskId }
  | none =>
    match getK s.pendingTasks taskId with
    | none => s
    | some _ =>
      { s with
        pendingTasks := delK s.pendingTasks taskId,
        taskOutcomes := s.taskOutcomes ++ [(taskId, TaskOutcome.resolved result)] }

/-- The rejection message of notifyPeerDisconnected for a pending task. -/
def taskDisconnectMsg (peerId taskId : String) : String :=
  "Peer '" ++ peerId ++ "' disconnected while task '" ++ taskId ++ "' was pending"

/-- The rejection message of notifyPeerDisconnected for a pending context
request. -/
def ctxDisconnectMsg (peerId requestId : String) : String :=
  "Peer '" ++ peerId ++ "' disconnected while context request '" ++ requestId ++
    "' was pending"

/-- Bridge.notifyPeerDisconnected: walk both pending tables, and for every
entry whose peerId matches, clear its timer, delete it and reject its
promise with the disconnect message. -/
def notifyPeerDisconnected (s : BridgeState) (peerId : String) : BridgeState :=
  { s with
    pendingTasks := s.pendingTasks.filter (fun e => ¬ e.2.peerId = peerId),
    taskOutcomes := s.taskOutcomes ++
      (s.pendingTasks.filter (fun e => e.2.peerId = peerId)).map
        (fun e => (e.1, TaskOutcome.rejected (taskDisconnectMsg peerId e.1))),
    pendingContextRequests :=
      s.pendingContextRequests.filter (fun e => ¬ e.2.peerId = peerId),
    ctxOutcomes := s.ctxOutcomes ++
      (s.pendingContextRequests.filter (fun e => e.2.peerId = peerId)).map
        (fun e => (e.1, CtxOutcome.rejected (ctxDisconnectMsg peerId e.1))) }

/-- Bridge.cleanup: stop auto-sync, reject every pending task and context
request with "Bridge is shutting down" and clear both tables, disconnect
the client transport, close every peer connection and clear the registry
(the network side effects are outside the model). -/
def cleanup (s : BridgeState) : BridgeState :=
  { s with
    autoSyncOn := false,
    taskOutcomes := s.taskOutcomes ++
      s.pendingTasks.map (fun e => (e.1, TaskOutcome.rejected "Bridge is shutting down")),
    pendingTasks := [],
    ctxOutcomes := s.ctxOutcomes ++
      s.pendingContextRequests.map
        (fun e => (e.1, CtxOutcome.rejected "Bridge is shutting down")),
    pendingContextRequests := [],
    peers := [] }

/-- Bridge.stop: a no-op returning success unless started; otherwise run
cleanup and clear the started flag. -/
def stop (s : BridgeState) : BridgeState :=
  if s.started then { cleanup s with started := false } else s

-- ===========================================================================
-- Router decisions (Bridge.handleMessage / handleTaskDelegate /
-- handleContextRequest / handleContextResponse)
-- ===========================================================================

/-- What handleTaskDelegate does with an incoming task_delegate. -/
inductive DelegateAction where
  | handleLocally
  | forwardTo (peerId : String)
  | errorReply (error : String)
deriving DecidableEq, Repr

/-- What handleContextRequest does with an incoming context request: the
no-handler no-peer reply is the empty-files response, not an error text. -/
inductive ContextRequestAction where
  | handleLocally
  | forwardTo (peerId : String)
  | emptyResponseToSender
deriving DecidableEq, Repr

/-- Bridge.handleTaskDelegate, the routing decision: with a registered
handler the task is handled locally; otherwise it is forwarded verbatim to
the first connected peer other than the sender (on a send failure, or with
no such peer, the reply is the failure response "No task handler registered
on peer").  Nothing distinguishes an already-forwarded message. -/
def handleTaskDelegateRouting (hasHandler : Bool) (peers : List String)
    (senderId : String) (forwardSendOk : Bool) : DelegateAction :=
  if hasHandler then DelegateAction.handleLocally
  else
    match peers.filter (fun pid => ¬ pid = senderId) with
    | [] => DelegateAction.errorReply "No task handler registered on peer"
    | target :: _ =>
      if forwardSendOk then DelegateAction.forwardTo target
      else DelegateAction.errorReply "No task handler registered on peer"

/-- Bridge.handleContextRequest, the routing decision (same shape as task
delegation; the no-handler no-peer reply carries files: [] and only the
requestId variable). -/
def handleContextRequestRouting (hasHandler : Bool) (peers : List String)
    (senderId : String) (forwardSendOk : Bool) : ContextRequestAction :=
  if hasHandler then ContextRequestAction.handleLocally
  else
    match peers.filter (fun pid => ¬ pid = senderId) with
    | [] => ContextRequestAction.emptyResponseToSender
    | target :: _ =>
      if forwardSendOk then ContextRequestAction.forwardTo target
      else ContextRequestAction.emptyResponseToSender

-- ===========================================================================
-- Message builders (src/bridge/messages.ts re-exported through
-- src/utils/index.ts) and message routing
-- ===========================================================================

/-- createMessage: fresh UUID and current time are effects, passed in. -/
def createMessage (type : MessageType) (source : String) (freshId : String)
    (now : Int) : BridgeMessage :=
  { id := freshId, type := type, source := source, timestamp := now }

/-- createContextSyncMessage. -/
def createContextSyncMessage (source : String) (context : Context)
    (freshId : String) (now : Int) : BridgeMessage :=
  { createMessage MessageType.context_sync source freshId now with
    context := some context }

/-- createTaskDelegateMessage. -/
def createTaskDelegateMessage (source : String) (task : TaskRequest)
    (freshId : String) (now : Int) : BridgeMessage :=
  { createMessage MessageType.task_delegate source freshId now with
    task := some task }

/-- createTaskResponseMessage: the result spread plus taskId. -/
def createTaskResponseMessage (source : String) (taskId : String)
    (result : TaskResult) (freshId : String) (now : Int) : BridgeMessage :=
  { createMessage MessageType.response source freshId now with
    result := some { result with taskId := some taskId } }

/-- createContextRequestMessage: a request whose context.summary is the query. -/
def createContextRequestMessage (source : String) (query : String)
    (freshId : String) (now : Int) : BridgeMessage :=
  { createMessage MessageType.request source freshId now with
    context := some { summary := some query } }

/-- JS truthiness of an optional string (undefined and "" are falsy). -/
def truthyStr : Option String → Bool
  | none => false
  | some s => ¬ s = ""

/-- JS truthiness of a JSON value. -/
def jsTruthy : Json → Bool
  | Json.null => false
  | Json.bool b => b
  | Json.num n => ¬ n = 0
  | Json.str s => ¬ s = ""
  | Json.arr _ => true
  | Json.obj _ => true

/-- JS String() coercion on the JSON values that can appear in reject
messages (arrays and objects are not exercised by the bridge). -/
def jsToString : Json → String
  | Json.null => "null"
  | Json.bool b => cond b "true" "false"
  | Json.num n => toString n
  | Json.str s => s
  | Json.arr _ => ""
  | Json.obj _ => "[object Object]"

/-- Which handler Bridge.handleMessage dispatches a message to. -/
inductive Route where
  | taskDelegate
  | taskResponse
  | contextSync
  | contextRequest
  | contextResponse
  | generic
deriving DecidableEq, Repr

/-- Bridge.handleMessage dispatch: task_delegate with a task; response with
a truthy result.taskId; context_sync with a context; request with a truthy
context.summary; response whose context.files is not undefined; else the
generic message handlers. -/
def routeMessage (m : BridgeMessage) : Route :=
  if m.type = MessageType.task_delegate ∧ m.task.isSome then Route.taskDelegate
  else if m.type = MessageType.response ∧
      truthyStr (m.result.bind (fun r => r.taskId)) then Route.taskResponse
  else if m.type = MessageType.context_sync ∧ m.context.isSome then Route.contextSync
  else if m.type = MessageType.request ∧
      truthyStr (m.context.bind (fun c => c.summary)) then Route.contextRequest
  else if m.type = MessageType.response ∧
      (m.context.map (fun c => c.files.isSome)).getD false then Route.contextResponse
  else Route.generic

/-- The response handleContextRequest sends when no context handler is
registered and there is no other peer: createContextSyncMessage with
files: [], retyped to response, variables replaced by {requestId}. -/
def emptyContextResponse (instanceName reqId freshId : String) (now : Int) :
    BridgeMessage :=
  let response := createContextSyncMessage instanceName { files := some [] } freshId now
  { response with
    type := MessageType.response,
    context := some { (response.context.getD {}) with
      vars := some [("requestId", Json.str reqId)] } }

/-- Bridge.handleContextResponse: read variables.requestId (non-string or
falsy values end in the logged-and-dropped paths, as the string-keyed map
lookups miss); route a forwarded response back; else settle the matching
pending request — rejecting when variables.error is truthy, resolving with
context.files ?? [] otherwise; with no match, log and drop. -/
def handleContextResponse (s : BridgeState) (m : BridgeMessage) : BridgeState :=
  let vars := (m.context.bind (fun c => c.vars)).getD []
  match getK vars "requestId" with
  | some (Json.str rid) =>
    if rid = "" then s
    else
      match getK s.forwardContexts rid with
      | some _ => { s with forwardContexts := delK s.forwardContexts rid }
      | none =>
        match getK s.pendingContextRequests rid with
        | none => s
        | some _ =>
          let files := (m.context.bind (fun c => c.files)).getD []
          let s1 := { s with
            pendingContextRequests := delK s.pendingContextRequests rid }
          match getK vars "error" with
          | some v =>
            if jsTruthy v then
              { s1 with ctxOutcomes := s1.ctxOutcomes ++
                  [(rid, CtxOutcome.rejected (jsToString v))] }
            else
              { s1 with ctxOutcomes := s1.ctxOutcomes ++
                  [(rid, CtxOutcome.resolvedFiles files)] }
          | none =>
            { s1 with ctxOutcomes := s1.ctxOutcomes ++
                [(rid, CtxOutcome.resolvedFiles files)] }
  | _ => s

/-- Concrete pending-task entry for witnesses. -/
def samplePendingTask : PendingTask :=
  { taskId := "t-1", peerId := "peer-1", timeoutMs := 200 }

/-- Concrete pending context request entry for witnesses. -/
def samplePendingCtx : PendingContextRequest :=
  { requestId := "r-1", peerId := "peer-1", timeoutMs := 30000 }

/-- A started bridge with one peer, one pending task and one pending
context request. -/
def sampleBridge : BridgeState :=
  { started := true, autoSyncOn := true, cfgTaskTimeout := none,
    peers := ["peer-1"],
    pendingTasks := [("t-1", samplePendingTask)],
    pendingContextRequests := [("r-1", samplePendingCtx)],
    forwardTasks := [], forwardContexts := [],
    taskOutcomes := [], ctxOutcomes := [] }

/-- A fresh task (id not yet pending) for delegation. -/
def sampleTask2 : TaskRequest :=
  { id := "t-2", description := "x", scope := TaskScope.execute }

/-- A concrete successful task result. -/
def sampleResult : TaskResult := { success := true }

-- ===========================================================================
-- Context engine: ranking (src/bridge/context.ts rankFilesForTask)
-- ===========================================================================

/-- Node path.relative(rootPath, file) for files under the root (and the
path itself when the root is empty): drop the root and the separator. -/
def relativePath (root file : String) : String :=
  if root = "" then file else ⟨file.data.drop (root.data.length + 1)⟩

/-- Characters of the basename: everything after the last slash. -/
def basenameAux : List Char → List Char → List Char
  | [], acc => acc
  | c :: t, acc => if c = '/' then basenameAux t [] else basenameAux t (acc ++ [c])

/-- Node path.basename on posix paths. -/
def basename (file : String) : String := ⟨basenameAux file.data []⟩

/-- Splitting on whitespace characters (String.prototype.split(/\s+/) up to
empty pieces, which the length filter below removes either way). -/
def splitWsAux : List Char → List Char → List String
  | [], acc => [⟨acc.reverse⟩]
  | c :: t, acc =>
    if c.isWhitespace then ⟨acc.reverse⟩ :: splitWsAux t []
    else splitWsAux t (c :: acc)

/-- The keywords of a task query: lowercase, split on whitespace, keep
tokens of length > 2. -/
def taskKeywords (task : String) : List String :=
  (splitWsAux (lowerStr task).data []).filter (fun w => w.length > 2)

/-- The {file, score} records rankFilesForTask builds. -/
structure ScoredFile where
  file : String
  score : Int
deriving DecidableEq, Repr

/-- The per-file score: +10 for each keyword the lowercased relative path
contains, +5 for basename index.ts/index.js/main.ts/main.js, +3 for
basename package.json. -/
def fileScore (root : String) (keywords : List String) (file : String) : Int :=
  let relLower := lowerStr (relativePath root file)
  let s0 := keywords.foldl
    (fun acc kw => if strIncludes relLower kw then acc + 10 else acc) 0
  let base := basename file
  let s1 := if base = "index.ts" ∨ base = "index.js" ∨ base = "main.ts" ∨
      base = "main.js" then s0 + 5 else s0
  if base = "package.json" then s1 + 3 else s1

/-- The sort comparator (a, b) => a.score !== b.score ? b.score - a.score :
a.file.localeCompare(b.file), as the non-positive-comparator relation. -/
def rankLe (a b : ScoredFile) : Bool :=
  if a.score = b.score then strLe a.file b.file else decide (b.score < a.score)

/-- Stable insertion into a sorted list (Array.prototype.sort is stable). -/
def insertLe {α : Type} (le : α → α → Bool) (a : α) : List α → List α
  | [] => [a]
  | b :: t => if le a b then a :: b :: t else b :: insertLe le a t

/-- Stable sort by the Bool relation le (models the stable
Array.prototype.sort with a consistent comparator). -/
def sortLe {α : Type} (le : α → α → Bool) : List α → List α
  | [] => []
  | a :: t => insertLe le a (sortLe le t)

/-- ContextManager.rankFilesForTask: score every file, sort by score
descending breaking ties with localeCompare on the path, return the files. -/
def rankFilesForTask (root : String) (files : List String) (task : String) :
    List String :=
  let keywords := taskKeywords task
  let scored := files.map (fun f => ScoredFile.mk f (fileScore root keywords f))
  (sortLe rankLe scored).map (fun sf => sf.file)

-- ===========================================================================
-- Context engine: snapshots and deltas (src/bridge/context.ts getDelta)
-- ===========================================================================

/-- A per-file snapshot record {path, mtime: stats.mtimeMs, size}. -/
structure FileState where
  path : String
  mtime : Int
  size : Int
deriving DecidableEq, Repr

/-- A stored snapshotStates entry: {id, files: path -> FileState}. -/
structure SnapshotState where
  id : String
  files : List (String × FileState)
deriving DecidableEq, Repr

/-- A file visible to the snapshot walk: stat data plus readable content.
The directory walk and include/exclude filtering of collectMatchingFiles
are abstracted: a FileSystem is the matching file set it returns, keyed by
relative path. -/
structure FsEntry where
  mtime : Int
  size : Int
  content : String
deriving DecidableEq, Repr

abbrev FileSystem := List (String × FsEntry)

/-- FileChange action. -/
inductive FileAction where
  | added
  | modified
  | deleted
deriving DecidableEq, Repr

/-- A FileChange of a ContextDelta. -/
structure FileChange where
  path : String
  action : FileAction
  diff : Option String := none
deriving DecidableEq, Repr

/-- ContextDelta. -/
structure ContextDelta where
  fromSyncId : String
  toSyncId : String
  changes : List FileChange
deriving DecidableEq, Repr

/-- ContextManager.generateFileDiff: read the file; the diff is the first
1000 characters of the current content, followed by "..." when content was
longer; unreadable files give "". -/
def generateFileDiff (fs : FileSystem) (relPath : String) : String :=
  match getK fs relPath with
  | none => ""
  | some e =>
    if e.content.data.length > 1000 then String.mk (e.content.data.take 1000) ++ "..."
    else e.content

/-- The files map generateSnapshot stores: each matching file with its
stat (mtimeMs, size). -/
def snapshotFiles (fs : FileSystem) : List (String × FileState) :=
  fs.map (fun e => (e.1, ⟨e.1, e.2.mtime, e.2.size⟩))

/-- The two classification loops of getDelta: walk the fresh snapshot for
added and modified files (in current order), then the stored snapshot for
deleted ones.  Present-now/absent-then is added; both present with
differing mtime or size is modified, carrying generateFileDiff; present
then and absent now is deleted. -/
def deltaChanges (lastState : SnapshotState) (fs : FileSystem) : List FileChange :=
  ((snapshotFiles fs).filterMap (fun e =>
    match getK lastState.files e.1 with
    | none => some { path := e.1, action := FileAction.added }
    | some lastFile =>
      if ¬ e.2.mtime = lastFile.mtime ∨ ¬ e.2.size = lastFile.size then
        some { path := e.1, action := FileAction.modified,
               diff := some (generateFileDiff fs e.1) }
      else none))
  ++ (lastState.files.filterMap (fun e =>
    if (getK (snapshotFiles fs) e.1).isNone then
      some { path := e.1, action := FileAction.deleted }
    else none))

/-- ContextManager.getDelta: fail if the snapshot id is unknown; otherwise
take a fresh snapshot (newId models its generated uuid; the new snapshot is
stored) and return the classified changes. -/
def getDelta (snapshots : List (String × SnapshotState)) (fs : FileSystem)
    (newId lastSyncId : String) :
    Except String (ContextDelta × List (String × SnapshotState)) :=
  match getK snapshots lastSyncId with
  | none => Except.error ("Snapshot " ++ lastSyncId ++ " not found")
  | some lastState =>
    Except.ok
      ({ fromSyncId := lastSyncId, toSyncId := newId,
         changes := deltaChanges lastState fs },
        setK snapshots newId ⟨newId, snapshotFiles fs⟩)

/-- A stored snapshot knowing one file a.ts. -/
def sampleLastState : SnapshotState :=
  { id := "s1", files := [("a.ts", ⟨"a.ts", 1, 5⟩)] }

/-- The current file system: a.ts modified, b.ts added. -/
def sampleFs : FileSystem :=
  [("a.ts", ⟨2, 6, "new content"⟩), ("b.ts", ⟨1, 3, "b"⟩)]

def sampleSnapshots : List (String × SnapshotState) := [("s1", sampleLastState)]

-- ===========================================================================
-- Protocol serialization and validation (src/bridge/protocol.ts).
-- JSON.stringify / JSON.parse are modelled at the document level: the
-- serializer produces the JSON document the emitted UTF-8 text denotes, and
-- JSON.parse of that text returns the same document, so deserializeMessage
-- is JSON.parse (the identity on well-formed documents) followed by the
-- zod BridgeMessageSchema validation, modelled field by field below.
-- ===========================================================================

/-- zod z.string(): accept exactly JSON strings. -/
def jStr : Json → Except String String
  | Json.str s => Except.ok s
  | _ => Except.error "Expected string"

/-- zod z.number(): accept exactly JSON numbers. -/
def jNum : Json → Except String Int
  | Json.num n => Except.ok n
  | _ => Except.error "Expected number"

/-- zod z.boolean(). -/
def jBool : Json → Except String Bool
  | Json.bool b => Except.ok b
  | _ => Except.error "Expected boolean"

/-- The fields of a JSON object (zod object / record input check). -/
def jObjFields : Json → Except String (List (String × Json))
  | Json.obj f => Except.ok f
  | _ => Except.error "Expected object"

/-- The elements of a JSON array (zod z.array input check). -/
def jArrElems : Json → Except String (List Json)
  | Json.arr a => Except.ok a
  | _ => Except.error "Expected array"

/-- A required object field: zod fails when it is absent. -/
def reqField {α : Type} (f : List (String × Json)) (key : String)
    (p : Json → Except String α) : Except String α :=
  match getK f key with
  | none => Except.error ("Required field missing: " ++ key)
  | some j => p j

/-- An .optional() object field: absent keys validate to none. -/
def optField {α : Type} (f : List (String × Json)) (key : String)
    (p : Json → Except String α) : Except String (Option α) :=
  match getK f key with
  | none => Except.ok none
  | some j => (p j).map some

/-- zod z.array(p) elementwise. -/
def parseListWith {α : Type} (p : Json → Except String α) :
    List Json → Except String (List α)
  | [] => Except.ok []
  | j :: t => do
    let x ← p j
    let xs ← parseListWith p t
    pure (x :: xs)

/-- An optional field of the serialized document: JSON.stringify omits keys
whose value is undefined, so a none field contributes nothing. -/
def optJField {α : Type} (key : String) (o : Option α) (f : α → Json) :
    List (String × Json) :=
  match o with
  | none => []
  | some x => [(key, f x)]

/-- A hexadecimal digit (either case). -/
def isHexCh (c : Char) : Bool :=
  (48 ≤ c.toNat ∧ c.toNat ≤ 57) ∨ (97 ≤ c.toNat ∧ c.toNat ≤ 102) ∨
    (65 ≤ c.toNat ∧ c.toNat ≤ 70)

/-- Split at dashes. -/
def splitDash : List Char → List Char → List (List Char)
  | [], acc => [acc.reverse]
  | c :: t, acc => if c = '-' then acc.reverse :: splitDash t [] else splitDash t (c :: acc)

/-- Models z.string().uuid(): five dash-separated hex groups of sizes
8-4-4-4-12, case-insensitive. -/
def isUuid (s : String) : Bool :=
  match splitDash s.data [] with
  | [a, b, c, d, e] =>
    a.length = 8 ∧ b.length = 4 ∧ c.length = 4 ∧ d.length = 4 ∧ e.length = 12 ∧
      (a ++ b ++ c ++ d ++ e).all isHexCh
  | _ => false

/-- The wire text of a MessageType. -/
def messageTypeToStr : MessageType → String
  | MessageType.request => "request"
  | MessageType.response => "response"
  | MessageType.context_sync => "context_sync"
  | MessageType.task_delegate => "task_delegate"
  | MessageType.notification => "notification"

/-- The MessageType z.enum: unknown values fail. -/
def parseMessageType : Json → Except String MessageType
  | Json.str "request" => Except.ok MessageType.request
  | Json.str "response" => Except.ok MessageType.response
  | Json.str "context_sync" => Except.ok MessageType.context_sync
  | Json.str "task_delegate" => Except.ok MessageType.task_delegate
  | Json.str "notification" => Except.ok MessageType.notification
  | _ => Except.error "Invalid enum value"

def treeEntryTypeToStr : TreeEntryType → String
  | TreeEntryType.file => "file"
  | TreeEntryType.directory => "directory"

def parseTreeEntryType : Json → Except String TreeEntryType
  | Json.str "file" => Except.ok TreeEntryType.file
  | Json.str "directory" => Except.ok TreeEntryType.directory
  | _ => Except.error "Invalid enum value"

def artifactActionToStr : ArtifactAction → String
  | ArtifactAction.created => "created"
  | ArtifactAction.modified => "modified"
  | ArtifactAction.deleted => "deleted"

def parseArtifactAction : Json → Except String ArtifactAction
  | Json.str "created" => Except.ok ArtifactAction.created
  | Json.str "modified" => Except.ok ArtifactAction.modified
  | Json.str "deleted" => Except.ok ArtifactAction.deleted
  | _ => Except.error "Invalid enum value"

def taskScopeToStr : TaskScope → String
  | TaskScope.execute => "execute"
  | TaskScope.analyze => "analyze"
  | TaskScope.suggest => "suggest"

def parseTaskScope : Json → Except String TaskScope
  | Json.str "execute" => Except.ok TaskScope.execute
  | Json.str "analyze" => Except.ok TaskScope.analyze
  | Json.str "suggest" => Except.ok TaskScope.suggest
  | _ => Except.error "Invalid enum value"

def returnFormatToStr : ReturnFormat → String
  | ReturnFormat.full => "full"
  | ReturnFormat.summary => "summary"
  | ReturnFormat.diff => "diff"

def parseReturnFormat : Json → Except String ReturnFormat
  | Json.str "full" => Except.ok ReturnFormat.full
  | Json.str "summary" => Except.ok ReturnFormat.summary
  | Json.str "diff" => Except.ok ReturnFormat.diff
  | _ => Except.error "Invalid enum value"

/-- JSON.stringify of a FileChunk. -/
def fileChunkToJson (c : FileChunk) : Json :=
  Json.obj ([("path", Json.str c.path), ("content", Json.str c.content)] ++
    optJField "startLine" c.startLine Json.num ++
    optJField "endLine" c.endLine Json.num ++
    optJField "language" c.language Json.str)

/-- FileChunkSchema.parse. -/
def parseFileChunk (j : Json) : Except String FileChunk := do
  let f ← jObjFields j
  let path ← reqField f "path" jStr
  let content ← reqField f "content" jStr
  let startLine ← optField f "startLine" jNum
  let endLine ← optField f "endLine" jNum
  let language ← optField f "language" jStr
  pure { path := path, content := content, startLine := startLine,
         endLine := endLine, language := language }

/-- JSON.stringify of an Artifact. -/
def artifactToJson (a : Artifact) : Json :=
  Json.obj ([("path", Json.str a.path),
    ("action", Json.str (artifactActionToStr a.action))] ++
    optJField "diff" a.diff Json.str)

/-- ArtifactSchema.parse. -/
def parseArtifact (j : Json) : Except String Artifact := do
  let f ← jObjFields j
  let path ← reqField f "path" jStr
  let action ← reqField f "action" parseArtifactAction
  let diff ← optField f "diff" jStr
  pure { path := path, action := action, diff := diff }

mutual

/-- JSON.stringify of a DirectoryTree (recursive). -/
def dtToJson : DirectoryTree → Json
  | DirectoryTree.node name ty children =>
    Json.obj ([("name", Json.str name),
      ("type", Json.str (treeEntryTypeToStr ty))] ++
      (match children with
       | none => []
       | some cs => [("children", Json.arr (dtListToJson cs))]))

def dtListToJson : List DirectoryTree → List Json
  | [] => []
  | t :: ts => dtToJson t :: dtListToJson ts

end

mutual

/-- DirectoryTreeSchema.parse (recursive through children arrays). -/
def parseDirectoryTree : Json → Except String DirectoryTree
  | Json.obj f =>
    match reqField f "name" jStr, reqField f "type" parseTreeEntryType with
    | Except.ok name, Except.ok ty =>
      (match hc : getK f "children" with
       | none => Except.ok (DirectoryTree.node name ty none)
       | some (Json.arr cs) =>
         (match parseDTList cs with
          | Except.ok children =>
            Except.ok (DirectoryTree.node name ty (some children))
          | Except.error e => Except.error e)
       | some _ => Except.error "Expected array")
    | Except.error e, _ => Except.error e
    | _, Except.error e => Except.error e
  | _ => Except.error "Expected object"
termination_by j => sizeOf j
decreasing_by
  all_goals simp_wf
  have haux : ∀ (l : List (String × Json)),
      getK l "children" = some (Json.arr cs) → ("children", Json.arr cs) ∈ l := by
    intro l
    induction l with
    | nil => intro hl; simp [getK] at hl
    | cons hd t ih =>
      intro hl
      obtain ⟨k, v⟩ := hd
      by_cases hk : k = "children"
      · subst hk
        have hv : v = Json.arr cs := by simpa [getK] using hl
        subst hv
        exact List.mem_cons_self _ _
      · exact List.mem_cons_of_mem _ (ih (by simpa [getK, hk] using hl))
  have hlt := List.sizeOf_lt_of_mem (haux f hc)
  simp at hlt
  omega

def parseDTList : List Json → Except String (List DirectoryTree)
  | [] => Except.ok []
  | c :: t =>
    match parseDirectoryTree c with
    | Except.error e => Except.error e
    | Except.ok d =>
      (match parseDTList t with
       | Except.error e => Except.error e
       | Except.ok ds => Except.ok (d :: ds))
termination_by l => sizeOf l
decreasing_by
  all_goals simp_wf <;> omega

end

/-- JSON.stringify of a Context (the source field name of vars is
variables). -/
def contextToJson (c : Context) : Json :=
  Json.obj (optJField "files" c.files (fun l => Json.arr (l.map fileChunkToJson)) ++
    optJField "tree" c.tree dtToJson ++
    optJField "summary" c.summary Json.str ++
    optJField "variables" c.vars Json.obj)

/-- ContextSchema.parse. -/
def parseContext (j : Json) : Except String Context := do
  let f ← jObjFields j
  let files ← optField f "files" (fun fj => do
    let a ← jArrElems fj
    parseListWith parseFileChunk a)
  let tree ← optField f "tree" parseDirectoryTree
  let summary ← optField f "summary" jStr
  let vars ← optField f "variables" jObjFields
  pure { files := files, tree := tree, summary := summary, vars := vars }

/-- JSON.stringify of a TaskRequest. -/
def taskRequestToJson (t : TaskRequest) : Json :=
  Json.obj ([("id", Json.str t.id), ("description", Json.str t.description),
    ("scope", Json.str (taskScopeToStr t.scope))] ++
    optJField "constraints" t.constraints (fun l => Json.arr (l.map Json.str)) ++
    optJField "returnFormat" t.returnFormat (fun rf => Json.str (returnFormatToStr rf)) ++
    optJField "timeout" t.timeout Json.num ++
    optJField "data" t.data Json.obj)

/-- TaskRequestSchema.parse. -/
def parseTaskRequest (j : Json) : Except String TaskRequest := do
  let f ← jObjFields j
  let id ← reqField f "id" jStr
  let description ← reqField f "description" jStr
  let scope ← reqField f "scope" parseTaskScope
  let constraints ← optField f "constraints" (fun cj => do
    let a ← jArrElems cj
    parseListWith jStr a)
  let returnFormat ← optField f "returnFormat" parseReturnFormat
  let timeout ← optField f "timeout" jNum
  let data ← optField f "data" jObjFields
  pure { id := id, description := description, scope := scope,
         constraints := constraints, returnFormat := returnFormat,
         timeout := timeout, data := data }

/-- JSON.stringify of a TaskResult. -/
def taskResultToJson (r : TaskResult) : Json :=
  Json.obj (optJField "taskId" r.taskId Json.str ++
    [("success", Json.bool r.success)] ++
    optJField "data" r.data (fun j => j) ++
    optJField "artifacts" r.artifacts (fun l => Json.arr (l.map artifactToJson)) ++
    optJField "followUp" r.followUp Json.str ++
    optJField "error" r.error Json.str)

/-- TaskResultSchema.parse (data is z.any(), accepting any value and an
absent key). -/
def parseTaskResult (j : Json) : Except String TaskResult := do
  let f ← jObjFields j
  let taskId ← optField f "taskId" jStr
  let success ← reqField f "success" jBool
  let data ← optField f "data" (fun dj => Except.ok dj)
  let artifacts ← optField f "artifacts" (fun aj => do
    let a ← jArrElems aj
    parseListWith parseArtifact a)
  let followUp ← optField f "followUp" jStr
  let error ← optField f "error" jStr
  pure { taskId := taskId, success := success, data := data,
         artifacts := artifacts, followUp := followUp, error := error }

/-- serializeMessage: JSON.stringify of the message envelope, at the
document level (the envelope's own fields in declaration order, optional
payload fields omitted when undefined, no field dropped or altered). -/
def serializeMessage (m : BridgeMessage) : Json :=
  Json.obj ([("id", Json.str m.id),
    ("type", Json.str (messageTypeToStr m.type)),
    ("source", Json.str m.source),
    ("timestamp", Json.num m.timestamp)] ++
    optJField "context" m.context contextToJson ++
    optJField "task" m.task taskRequestToJson ++
    optJField "result" m.result taskResultToJson)

/-- validateMessage: BridgeMessageSchema.parse on a document — id must be
a string satisfying the uuid check, type one of the five enum values,
source a string, timestamp a number, the payloads validated by their
schemas when present.  Unknown fields are ignored (getK only reads the
known keys). -/
def validateMessage (j : Json) : Except String BridgeMessage := do
  let f ← jObjFields j
  let id ← reqField f "id" (fun ij => do
    let s ← jStr ij
    if isUuid s then pure s else Except.error "Invalid uuid")
  let type ← reqField f "type" parseMessageType
  let source ← reqField f "source" jStr
  let timestamp ← reqField f "timestamp" jNum
  let context ← optField f "context" parseContext
  let task ← optField f "task" parseTaskRequest
  let result ← optField f "result" parseTaskResult
  pure { id := id, type := type, source := source, timestamp := timestamp,
         context := context, task := task, result := result }

/-- deserializeMessage: JSON.parse of the serialized text (the identity at
the document level) followed by validateMessage. -/
def deserializeMessage (j : Json) : Except String BridgeMessage :=
  validateMessage j

/-- A schema-valid concrete message (uuid id, a task payload). -/
def sampleMessage : BridgeMessage :=
  { id := "123e4567-e89b-42d3-a456-426614174000",
    type := MessageType.task_delegate, source := "host-1",
    timestamp := 1700000000000,
    task := some { id := "t-1", description := "x", scope := TaskScope.execute } }

-- ===========================================================================
-- Theorems
-- ===========================================================================

theorem getK_eq_none_iff {α : Type} (l : List (String × α)) (key : String) :
    getK l key = none ↔ ∀ p ∈ l, p.1 ≠ key := by
  induction l with
  | nil => simp [getK]
  | cons h t ih =>
    obtain ⟨k, v⟩ := h
    by_cases hk : k = key <;> simp [getK, hk, ih]

theorem getK_delK_self {α : Type} (l : List (String × α)) (key : String) :
    getK (delK l key) key = none := by
  induction l with
  | nil => simp [delK, getK]
  | cons h t ih =>
    obtain ⟨k, v⟩ := h
    by_cases hk : k = key <;> simp [delK, getK, hk, ih]

theorem getK_delK_ne {α : Type} (l : List (String × α)) (key k2 : String)
    (h : k2 ≠ key) : getK (delK l key) k2 = getK l k2 := by
  induction l with
  | nil => simp [delK]
  | cons hd t ih =>
    obtain ⟨k, v⟩ := hd
    by_cases hk : k = key
    · subst hk
      have hne : ¬ k = k2 := fun hh => h hh.symm
      simp [delK, getK, hne, ih]
    · simp [delK, getK, hk, ih]

theorem countK_setK_of_nodup {α : Type} (l : List (String × α)) (key : String)
    (v : α) (h : keysNodup l) : countK (setK l key v) key = 1 := by
  induction l with
  | nil => simp [setK, countK]
  | cons hd t ih =>
    obtain ⟨k, w⟩ := hd
    have h' : (k :: t.map Prod.fst).Nodup := by simpa [keysNodup] using h
    have hkt : k ∉ t.map Prod.fst := (List.nodup_cons.mp h').1
    have h2 : keysNodup t := (List.nodup_cons.mp h').2
    by_cases hk : k = key
    · subst hk
      have hfil : (t.filter fun p => decide (p.1 = k)) = [] := by
        apply List.filter_eq_nil_iff.mpr
        intro p hp
        simp only [decide_eq_true_eq]
        intro hpk
        exact hkt (hpk ▸ List.mem_map_of_mem Prod.fst hp)
      simp [setK, countK, List.filter_cons, hfil]
    · have hrec := ih h2
      simp only [countK] at hrec ⊢
      simp [setK, hk, List.filter_cons, hrec]

theorem keysNodup_nil {α : Type} : keysNodup ([] : List (String × α)) := by
  simp [keysNodup]

/-- A key absent from a map (getK none) contributes no entries at all. -/
theorem filter_eq_nil_of_getK_none {α : Type} (l : List (String × α))
    (key : String) (h : getK l key = none) :
    (l.filter fun p => p.1 = key) = [] := by
  apply List.filter_eq_nil_iff.mpr
  intro p hp
  simpa using (getK_eq_none_iff l key).mp h p hp

theorem leadsWith_refl : ∀ l : List Char, leadsWith l l = true
  | [] => rfl
  | _ :: t => by simp [leadsWith, leadsWith_refl t]

/-- A suffix is always a substring. -/
theorem hasSub_append_right : ∀ (x p : List Char), hasSub (x ++ p) p = true
  | [], p => by
    cases p with
    | nil => rfl
    | cons c t => simp [hasSub, leadsWith_refl]
  | c :: x, p => by
    simp [hasSub, hasSub_append_right x p]

theorem lexLe_total : ∀ a b : List Char, lexLe a b = true ∨ lexLe b a = true
  | [], _ => Or.inl rfl
  | _ :: _, [] => Or.inr rfl
  | a :: as, b :: bs => by
    rcases Nat.lt_trichotomy a.toNat b.toNat with h | h | h
    · exact Or.inl (by simp [lexLe, h])
    · have hba : ¬ b.toNat < a.toNat := by omega
      have hab : ¬ a.toNat < b.toNat := by omega
      rcases lexLe_total as bs with ih | ih
      · exact Or.inl (by simp [lexLe, hab, hba, ih])
      · exact Or.inr (by simp [lexLe, hab, hba, ih])
    · exact Or.inr (by simp [lexLe, h])

theorem lexLe_trans : ∀ a b c : List Char,
    lexLe a b = true → lexLe b c = true → lexLe a c = true
  | [], _, _, _, _ => rfl
  | _ :: _, [], _, h1, _ => by simp [lexLe] at h1
  | _ :: _, _ :: _, [], _, h2 => by simp [lexLe] at h2
  | a :: as, b :: bs, c :: cs, h1, h2 => by
    simp only [lexLe] at h1 h2 ⊢
    rcases Nat.lt_trichotomy a.toNat b.toNat with hab | hab | hab
    · rcases Nat.lt_trichotomy b.toNat c.toNat with hbc | hbc | hbc
      · simp [show a.toNat < c.toNat by omega]
      · simp [show a.toNat < c.toNat by omega]
      · simp [show ¬ b.toNat < c.toNat by omega, hbc] at h2
    · rcases Nat.lt_trichotomy b.toNat c.toNat with hbc | hbc | hbc
      · simp [show a.toNat < c.toNat by omega]
      · simp [show ¬ a.toNat < b.toNat by omega,
              show ¬ b.toNat < a.toNat by omega] at h1
        simp [show ¬ b.toNat < c.toNat by omega,
              show ¬ c.toNat < b.toNat by omega] at h2
        simp [show ¬ a.toNat < c.toNat by omega,
              show ¬ c.toNat < a.toNat by omega,
              lexLe_trans as bs cs h1 h2]
      · simp [show ¬ b.toNat < c.toNat by omega, hbc] at h2
    · simp [show ¬ a.toNat < b.toNat by omega, hab] at h1

/-- Dropping a common prefix does not change the lexicographic order. -/
theorem lexLe_append_left : ∀ (p a b : List Char),
    lexLe (p ++ a) (p ++ b) = lexLe a b
  | [], _, _ => rfl
  | c :: p, a, b => by
    simp [lexLe, lexLe_append_left p a b]

theorem flush_all_ok (ok : BridgeMessage → Bool) :
    ∀ q : List BridgeMessage, (∀ x ∈ q, ok x = true) →
      flushMessageQueue ok q = (q, [])
  | [], _ => rfl
  | m :: rest, h => by
    have hm : ok m = true := h m (List.mem_cons_self m rest)
    have hrest := flush_all_ok ok rest (fun x hx => h x (List.mem_cons_of_mem m hx))
    simp [flushMessageQueue, hm, hrest]

theorem flush_first_fail (ok : BridgeMessage → Bool) (bad : BridgeMessage)
    (post : List BridgeMessage) (hbad : ok bad = false) :
    ∀ pre : List BridgeMessage, (∀ x ∈ pre, ok x = true) →
      flushMessageQueue ok (pre ++ bad :: post) = (pre, [bad])
  | [], _ => by simp [flushMessageQueue, hbad]
  | p :: pre, h => by
    have hp : ok p = true := h p (List.mem_cons_self p pre)
    have hpre := flush_first_fail ok bad post hbad pre
      (fun x hx => h x (List.mem_cons_of_mem p hx))
    simp [flushMessageQueue, hp, hpre]

/-- Claim C4 (amended): send writes immediately when a socket exists and the
state is CONNECTED; it enqueues (at the back, FIFO) whenever the saved
config has reconnect enabled, fewer than maxReconnectAttempts reconnection
attempts have been counted, and the state is RECONNECTING or DISCONNECTED —
regardless of the intentional-disconnect flag; in every remaining case it
fails with the Not connected error.  The last conjunct characterises
shouldReconnect, which is the only guard of the queueing branch. -/
theorem C4_send_cases (t : TransportState) (m : BridgeMessage) :
    (t.hasWs = true → t.state = ConnectionState.connected →
      send t m = (SendOutcome.sentImmediate, t)) ∧
    (¬ (t.hasWs = true ∧ t.state = ConnectionState.connected) →
      shouldReconnect t = true →
      (t.state = ConnectionState.reconnecting ∨ t.state = ConnectionState.disconnected) →
      send t m = (SendOutcome.queued, { t with messageQueue := t.messageQueue ++ [m] })) ∧
    (¬ (t.hasWs = true ∧ t.state = ConnectionState.connected) →
      ¬ (shouldReconnect t = true ∧
        (t.state = ConnectionState.reconnecting ∨ t.state = ConnectionState.disconnected)) →
      send t m = (SendOutcome.notConnectedError, t)) ∧
    (shouldReconnect t = true ↔ ∃ c, t.config = some c ∧ c.reconnect = some true ∧
      t.reconnectAttempts < c.maxReconnectAttempts.getD DEFAULT_MAX_RECONNECT_ATTEMPTS) := by
  refine ⟨?_, ?_, ?_, ?_⟩
  · intro h1 h2
    simp [send, h1, h2]
  · intro hnc hsr hst
    unfold send
    rw [if_neg hnc, if_pos ⟨hsr, hst⟩]
    rfl
  · intro hnc hno
    unfold send
    rw [if_neg hnc, if_neg hno]
  · cases hc : t.config with
    | none => simp [shouldReconnect, hc]
    | some c =>
      rcases hr : c.reconnect with _ | b
      · simp [shouldReconnect, hc, hr]
      · cases b <;> simp [shouldReconnect, hc, hr]

/-- Claim C4, the original statement is false: after an intentional
disconnect() of a transport whose config enables reconnection, send does
not fail with NotConnected — it queues the message (shouldReconnect ignores
the intentionalDisconnect flag). -/
theorem C4_counterexample :
    (disconnect connectedTransport).intentionalDisconnect = true ∧
    (send (disconnect connectedTransport) dummyMessage).1 = SendOutcome.queued ∧
    ¬ (send (disconnect connectedTransport) dummyMessage).1 = SendOutcome.notConnectedError := by
  refine ⟨rfl, rfl, by decide⟩

theorem C4_witness :
    send connectedTransport dummyMessage = (SendOutcome.sentImmediate, connectedTransport) :=
  (C4_send_cases connectedTransport dummyMessage).1 rfl rfl

/-- Claim C5 (amended): the offline queue is FIFO — queueMessage appends at
the back, and a flush sends the queued messages serially in enqueue order;
after a fully successful flush the queue is empty; on the first send error
the failing message is put back as the only element of the queue (the
messages after it in the flushed batch are dropped, since the queue was
emptied at the start of the flush) and the flush aborts. -/
theorem C5_flush_fifo (ok : BridgeMessage → Bool) (q pre post : List BridgeMessage)
    (bad m : BridgeMessage) :
    ((∀ x ∈ q, ok x = true) → flushMessageQueue ok q = (q, [])) ∧
    (q = pre ++ bad :: post → (∀ x ∈ pre, ok x = true) → ok bad = false →
      flushMessageQueue ok q = (pre, [bad])) ∧
    queueMessage q m = q ++ [m] := by
  refine ⟨fun h => flush_all_ok ok q h, fun hq hpre hbad => ?_, rfl⟩
  subst hq
  exact flush_first_fail ok bad post hbad pre hpre

/-- Claim C5, the original statement is false on the code: with queue
[msgA, msgB, msgC] and the send of msgB failing, the queue after the flush
is [msgB] — msgC does not remain queued, contradicting "it and every later
queued message remain queued for retry". -/
theorem C5_counterexample :
    flushMessageQueue (fun x => x.id != "m2") [msgA, msgB, msgC] = ([msgA], [msgB]) ∧
    ¬ (flushMessageQueue (fun x => x.id != "m2") [msgA, msgB, msgC]).2 = [msgB, msgC] := by
  constructor
  · rfl
  · intro h
    exact absurd (congrArg List.length h) (by decide)

theorem C5_witness :
    flushMessageQueue (fun _ => true) [msgA, msgB] = ([msgA, msgB], []) :=
  (C5_flush_fifo (fun _ => true) [msgA, msgB] [] [] msgA msgA).1 (fun _ _ => rfl)

theorem getK_setK_self {α : Type} (l : List (String × α)) (k : String) (v : α) :
    getK (setK l k v) k = some v := by
  induction l with
  | nil => simp [setK, getK]
  | cons hd t ih =>
    obtain ⟨k0, w⟩ := hd
    by_cases hk : k0 = k <;> simp [setK, getK, hk, ih]

/-- With unique keys, the entries stored under a present key are exactly
the entry getK finds. -/
theorem filter_key_singleton {α : Type} (l : List (String × α)) (t : String)
    (p : α) (hW : keysNodup l) (hp : getK l t = some p) :
    l.filter (fun e => e.1 = t) = [(t, p)] := by
  induction l with
  | nil => simp [getK] at hp
  | cons hd tl ih =>
    obtain ⟨k, v⟩ := hd
    have h' : (k :: tl.map Prod.fst).Nodup := by simpa [keysNodup] using hW
    have hkt : k ∉ tl.map Prod.fst := (List.nodup_cons.mp h').1
    have h2 : keysNodup tl := (List.nodup_cons.mp h').2
    by_cases hk : k = t
    · subst hk
      have hv : v = p := by simpa [getK] using hp
      subst hv
      have hfil : (tl.filter fun e => decide (e.1 = k)) = [] := by
        apply List.filter_eq_nil_iff.mpr
        intro e he
        simp only [decide_eq_true_eq]
        intro hek
        exact hkt (hek ▸ List.mem_map_of_mem Prod.fst he)
      simp [List.filter_cons, hfil]
    · have hp' : getK tl t = some p := by simpa [getK, hk] using hp
      simp [List.filter_cons, hk, ih h2 hp']

/-- Filtering then projecting the key-indexed log: with unique keys, the
log entries produced for key t by mapping over a sub-filter are exactly the
one produced from the entry of t (when the sub-filter keeps it). -/
theorem filter_key_map_filter {α β : Type} (l : List (String × α)) (t : String)
    (p : α) (pm : String × α → Bool) (g : String × α → β)
    (hW : keysNodup l) (hp : getK l t = some p) (hpm : pm (t, p) = true) :
    ((l.filter pm).map (fun e => (e.1, g e))).filter (fun e => e.1 = t)
      = [(t, g (t, p))] := by
  induction l with
  | nil => simp [getK] at hp
  | cons hd tl ih =>
    obtain ⟨k, v⟩ := hd
    have h' : (k :: tl.map Prod.fst).Nodup := by simpa [keysNodup] using hW
    have hkt : k ∉ tl.map Prod.fst := (List.nodup_cons.mp h').1
    have h2 : keysNodup tl := (List.nodup_cons.mp h').2
    by_cases hk : k = t
    · subst hk
      have hv : v = p := by simpa [getK] using hp
      subst hv
      have htl : ((tl.filter pm).map (fun e => (e.1, g e))).filter
          (fun e => e.1 = k) = [] := by
        apply List.filter_eq_nil_iff.mpr
        intro e he
        simp only [List.mem_map, List.mem_filter] at he
        obtain ⟨a, ⟨ha, _⟩, hae⟩ := he
        simp only [decide_eq_true_eq]
        intro hek
        apply hkt
        have : a.1 = k := by rw [← hae] at hek; simpa using hek
        exact this ▸ List.mem_map_of_mem Prod.fst ha
      simp [List.filter_cons, hpm, htl]
    · by_cases hpm2 : pm (k, v) = true
      · have hp' : getK tl t = some p := by simpa [getK, hk] using hp
        simp [List.filter_cons, hpm2, hk, ih h2 hp']
      · have hp' : getK tl t = some p := by simpa [getK, hk] using hp
        have hpmf : pm (k, v) = false := by
          cases hpmv : pm (k, v)
          · rfl
          · exact absurd hpmv hpm2
        simp [List.filter_cons, hpmf, ih h2 hp']

/-- When the key is absent, no log entry for it is produced. -/
theorem filter_key_map_nil {α β : Type} (l : List (String × α)) (t : String)
    (pm : String × α → Bool) (g : String × α → β)
    (h : getK l t = none) :
    ((l.filter pm).map (fun e => (e.1, g e))).filter (fun e => e.1 = t) = [] := by
  apply List.filter_eq_nil_iff.mpr
  intro e he
  simp only [List.mem_map, List.mem_filter] at he
  obtain ⟨a, ⟨ha, _⟩, hae⟩ := he
  simp only [decide_eq_true_eq]
  intro hek
  have ha1 : a.1 = t := by rw [← hae] at hek; simpa using hek
  exact (getK_eq_none_iff l t).mp h a ha ha1

/-- The entry of a present key is excluded by a sub-filter that rejects it. -/
theorem getK_filter_none_of_excluded {α : Type} (l : List (String × α))
    (t : String) (p : α) (pred : String × α → Bool)
    (hW : keysNodup l) (hp : getK l t = some p) (hpred : pred (t, p) = false) :
    getK (l.filter pred) t = none := by
  rw [getK_eq_none_iff]
  intro e he hkey
  have hmem := List.mem_filter.mp he
  have hin : e ∈ l.filter (fun x => x.1 = t) :=
    List.mem_filter.mpr ⟨hmem.1, by simpa using hkey⟩
  rw [filter_key_singleton l t p hW hp] at hin
  have he2 : e = (t, p) := by simpa using hin
  rw [he2] at hmem
  rw [hpred] at hmem
  exact Bool.noConfusion hmem.2

/-- Claim C2: while a delegated task is in flight there is exactly one
pending entry under its id (registration of a fresh id and a successful
send leave exactly one entry and settle nothing); a state holding a pending
entry for t is settled exactly once by whichever of matching response,
timeout firing, disconnect of the entry's peer, or stop() comes first —
each removes the entry and appends exactly one outcome for t — and once the
entry is gone a later timeout firing or matching response for t changes
nothing. -/
theorem C2_pending_task_lifecycle (s : BridgeState) (t : String) (p : PendingTask)
    (task : TaskRequest) (r : TaskResult) (pid : String)
    (hW : keysNodup s.pendingTasks)
    (hp : getK s.pendingTasks t = some p)
    (hf : getK s.forwardTasks t = none)
    (hpid : s.peers.contains pid = true)
    (hst : s.started = true) :
    (∃ s1, delegateTask s task (some pid) none = Except.ok s1 ∧
      countK s1.pendingTasks task.id = 1 ∧ s1.taskOutcomes = s.taskOutcomes) ∧
    (handleTaskResponse s t r = { s with
      pendingTasks := delK s.pendingTasks t,
      taskOutcomes := s.taskOutcomes ++ [(t, TaskOutcome.resolved r)] }) ∧
    (fireTaskTimeout s t = { s with
      pendingTasks := delK s.pendingTasks t,
      taskOutcomes := s.taskOutcomes ++
        [(t, TaskOutcome.rejected (taskTimeoutMsg t p.timeoutMs))] }) ∧
    (getK (notifyPeerDisconnected s p.peerId).pendingTasks t = none ∧
      (notifyPeerDisconnected s p.peerId).taskOutcomes.filter (fun e => e.1 = t) =
        s.taskOutcomes.filter (fun e => e.1 = t) ++
          [(t, TaskOutcome.rejected (taskDisconnectMsg p.peerId t))]) ∧
    ((stop s).pendingTasks = [] ∧
      (stop s).taskOutcomes.filter (fun e => e.1 = t) =
        s.taskOutcomes.filter (fun e => e.1 = t) ++
          [(t, TaskOutcome.rejected "Bridge is shutting down")]) ∧
    (fireTaskTimeout (handleTaskResponse s t r) t = handleTaskResponse s t r) ∧
    (handleTaskResponse (fireTaskTimeout s t) t r = fireTaskTimeout s t) ∧
    ((notifyPeerDisconnected (handleTaskResponse s t r) p.peerId).taskOutcomes.filter
        (fun e => e.1 = t) =
      (handleTaskResponse s t r).taskOutcomes.filter (fun e => e.1 = t)) := by
  refine ⟨?_, ?_, ?_, ⟨?_, ?_⟩, ⟨?_, ?_⟩, ?_, ?_, ?_⟩
  · have h1 : delegateTask s task (some pid) none = Except.ok { s with
        pendingTasks := setK s.pendingTasks task.id
          ⟨task.id, pid, chosenTimeout task s.cfgTaskTimeout⟩ } := by
      have hmem : pid ∈ s.peers := by simpa using hpid
      simp [delegateTask, hmem]
    exact ⟨_, h1, countK_setK_of_nodup s.pendingTasks task.id _ hW, rfl⟩
  · simp [handleTaskResponse, hf, hp]
  · simp [fireTaskTimeout, hp]
  · exact getK_filter_none_of_excluded s.pendingTasks t p _ hW hp (by simp)
  · simp only [notifyPeerDisconnected, List.filter_append]
    rw [filter_key_map_filter s.pendingTasks t p _
      (fun e => TaskOutcome.rejected (taskDisconnectMsg p.peerId e.1)) hW hp (by simp)]
  · simp [stop, hst, cleanup]
  · simp only [stop, hst, if_pos, cleanup, List.filter_append]
    have := filter_key_map_filter s.pendingTasks t p (fun _ => true)
      (fun e => TaskOutcome.rejected "Bridge is shutting down") hW hp rfl
    simpa using this
  · simp [handleTaskResponse, hf, hp, fireTaskTimeout, getK_delK_self]
  · simp [fireTaskTimeout, hp, handleTaskResponse, hf, getK_delK_self]
  · simp only [handleTaskResponse, hf, hp, notifyPeerDisconnected, List.filter_append]
    rw [filter_key_map_nil (delK s.pendingTasks t) t _
      (fun e => TaskOutcome.rejected (taskDisconnectMsg p.peerId e.1))
      (getK_delK_self s.pendingTasks t)]
    simp

theorem C2_witness :
    fireTaskTimeout sampleBridge "t-1" = { sampleBridge with
      pendingTasks := delK sampleBridge.pendingTasks "t-1",
      taskOutcomes := sampleBridge.taskOutcomes ++
        [("t-1", TaskOutcome.rejected (taskTimeoutMsg "t-1" samplePendingTask.timeoutMs))] } :=
  (C2_pending_task_lifecycle sampleBridge "t-1" samplePendingTask sampleTask2
    sampleResult "peer-1" (by unfold keysNodup; decide) rfl rfl
    (by decide) rfl).2.2.1

/-- Claim C6: delegateTask stores the timeout task.timeout ??
config.taskTimeout ?? 300000 in the pending entry; when the timer fires
before a response the entry is removed and the promise rejected exactly
once with the message "Task '<id>' timed out after <ms>ms", which contains
the timeout in milliseconds followed by "ms"; a response for that id
arriving afterwards is logged and dropped, changing nothing. -/
theorem C6_task_timeout (s : BridgeState) (t : String) (p : PendingTask)
    (task : TaskRequest) (r : TaskResult) (pid : String)
    (hp : getK s.pendingTasks t = some p)
    (hf : getK s.forwardTasks t = none)
    (hpid : s.peers.contains pid = true) :
    (∃ s1, delegateTask s task (some pid) none = Except.ok s1 ∧
      getK s1.pendingTasks task.id = some
        ⟨task.id, pid, chosenTimeout task s.cfgTaskTimeout⟩) ∧
    (chosenTimeout task s.cfgTaskTimeout =
      task.timeout.getD (s.cfgTaskTimeout.getD 300000)) ∧
    (fireTaskTimeout s t = { s with
      pendingTasks := delK s.pendingTasks t,
      taskOutcomes := s.taskOutcomes ++
        [(t, TaskOutcome.rejected (taskTimeoutMsg t p.timeoutMs))] }) ∧
    (strIncludes (taskTimeoutMsg t p.timeoutMs)
      (toString p.timeoutMs ++ "ms") = true) ∧
    (getK (fireTaskTimeout s t).pendingTasks t = none) ∧
    (handleTaskResponse (fireTaskTimeout s t) t r = fireTaskTimeout s t) := by
  refine ⟨?_, ?_, ?_, ?_, ?_, ?_⟩
  · have h1 : delegateTask s task (some pid) none = Except.ok { s with
        pendingTasks := setK s.pendingTasks task.id
          ⟨task.id, pid, chosenTimeout task s.cfgTaskTimeout⟩ } := by
      have hmem : pid ∈ s.peers := by simpa using hpid
      simp [delegateTask, hmem]
    exact ⟨_, h1, getK_setK_self s.pendingTasks task.id _⟩
  · cases ht : task.timeout <;> cases hc : s.cfgTaskTimeout <;>
      simp [chosenTimeout, ht, hc]
  · simp [fireTaskTimeout, hp]
  · have hdata : (taskTimeoutMsg t p.timeoutMs).data =
        ("Task '" ++ t ++ "' timed out after ").data ++
          (toString p.timeoutMs ++ "ms").data := by
      simp [taskTimeoutMsg, String.data_append, List.append_assoc]
    unfold strIncludes
    rw [hdata]
    exact hasSub_append_right _ _
  · simp [fireTaskTimeout, hp, getK_delK_self]
  · simp [fireTaskTimeout, hp, handleTaskResponse, hf, getK_delK_self]

theorem C6_witness :
    strIncludes (taskTimeoutMsg "t-1" samplePendingTask.timeoutMs)
      (toString samplePendingTask.timeoutMs ++ "ms") = true :=
  (C6_task_timeout sampleBridge "t-1" samplePendingTask sampleTask2 sampleResult
    "peer-1" rfl rfl (by decide)).2.2.2.1

/-- Claim C7: stop() on a started bridge rejects every pending task and
every pending context request with "Bridge is shutting down", clears both
pending tables, stops auto-sync, clears the peer registry (disconnecting
every peer) and clears the started flag; a second stop() is a no-op that
returns successfully. -/
theorem C7_stop_idempotent (s : BridgeState) (hst : s.started = true) :
    (stop s).started = false ∧
    (stop s).pendingTasks = [] ∧
    (stop s).pendingContextRequests = [] ∧
    (stop s).autoSyncOn = false ∧
    (stop s).peers = [] ∧
    (stop s).taskOutcomes = s.taskOutcomes ++
      s.pendingTasks.map (fun e => (e.1, TaskOutcome.rejected "Bridge is shutting down")) ∧
    (stop s).ctxOutcomes = s.ctxOutcomes ++
      s.pendingContextRequests.map
        (fun e => (e.1, CtxOutcome.rejected "Bridge is shutting down")) ∧
    stop (stop s) = stop s := by
  refine ⟨?_, ?_, ?_, ?_, ?_, ?_, ?_, ?_⟩ <;>
    simp [stop, hst, cleanup]

theorem C7_witness : stop (stop sampleBridge) = stop sampleBridge :=
  (C7_stop_idempotent sampleBridge rfl).2.2.2.2.2.2.2

/-- Claim C3 is violated by the code: a bridge with no task (or context)
handler that receives a task_delegate / context request — forwarded or not,
nothing in the message distinguishes the two — and that has a connected
peer other than the sender forwards the message to that peer instead of
replying with an error response.  At the concrete state (no handler, sender
peerA, another peer peerC) the routing decision is a second forward, not an
error reply, so a forwarded request is forwarded again. -/
theorem C3_second_hop_forward :
    handleTaskDelegateRouting false ["peerA", "peerC"] "peerA" true =
      DelegateAction.forwardTo "peerC" ∧
    (∀ e, ¬ handleTaskDelegateRouting false ["peerA", "peerC"] "peerA" true =
      DelegateAction.errorReply e) ∧
    handleContextRequestRouting false ["peerA", "peerC"] "peerA" true =
      ContextRequestAction.forwardTo "peerC" ∧
    handleTaskDelegateRouting false ["peerA"] "peerA" true =
      DelegateAction.errorReply "No task handler registered on peer" := by
  refine ⟨rfl, ?_, rfl, rfl⟩
  intro e he
  exact DelegateAction.noConfusion he

/-- Claim C10: a context request arriving with no context handler and no
other peer is answered by a response whose context.files is [] and whose
variables carry only the originating request id (no error entry); the
router dispatches that response to handleContextResponse, which resolves
the originator's pending request successfully with the empty file list —
indistinguishable from a handler that found nothing. -/
theorem C10_empty_context_response (s : BridgeState)
    (reqId freshId name senderId : String)
    (now : Int) (p : PendingContextRequest)
    (hp : getK s.pendingContextRequests reqId = some p)
    (hfwd : getK s.forwardContexts reqId = none)
    (hne : ¬ reqId = "") :
    handleContextRequestRouting false [senderId] senderId true =
      ContextRequestAction.emptyResponseToSender ∧
    (emptyContextResponse name reqId freshId now).type = MessageType.response ∧
    (emptyContextResponse name reqId freshId now).context = some
      { files := some [], tree := none, summary := none,
        vars := some [("requestId", Json.str reqId)] } ∧
    routeMessage (emptyContextResponse name reqId freshId now) = Route.contextResponse ∧
    handleContextResponse s (emptyContextResponse name reqId freshId now) =
      { s with
        pendingContextRequests := delK s.pendingContextRequests reqId,
        ctxOutcomes := s.ctxOutcomes ++ [(reqId, CtxOutcome.resolvedFiles [])] } := by
  refine ⟨?_, rfl, rfl, ?_, ?_⟩
  · simp [handleContextRequestRouting]
  · simp [routeMessage, emptyContextResponse, createContextSyncMessage,
      createMessage, truthyStr]
  · simp [handleContextResponse, emptyContextResponse, createContextSyncMessage,
      createMessage, getK, hne, hfwd, hp]

theorem C10_witness :
    handleContextResponse sampleBridge (emptyContextResponse "host" "r-1" "f-1" 0) =
      { sampleBridge with
        pendingContextRequests := delK sampleBridge.pendingContextRequests "r-1",
        ctxOutcomes := sampleBridge.ctxOutcomes ++
          [("r-1", CtxOutcome.resolvedFiles [])] } :=
  (C10_empty_context_response sampleBridge "r-1" "f-1" "host" "peer-1" 0
    samplePendingCtx rfl rfl (by decide)).2.2.2.2

theorem insertLe_perm {α : Type} (le : α → α → Bool) (a : α) :
    ∀ l : List α, (insertLe le a l).Perm (a :: l)
  | [] => List.Perm.refl _
  | b :: t => by
    by_cases h : le a b = true
    · simp [insertLe, h]
    · simp only [insertLe, if_neg h]
      exact ((insertLe_perm le a t).cons b).trans (List.Perm.swap a b t)

theorem sortLe_perm {α : Type} (le : α → α → Bool) :
    ∀ l : List α, (sortLe le l).Perm l
  | [] => List.Perm.refl _
  | a :: t =>
    (insertLe_perm le a (sortLe le t)).trans ((sortLe_perm le t).cons a)

theorem insertLe_sorted {α : Type} (le : α → α → Bool)
    (htrans : ∀ a b c, le a b = true → le b c = true → le a c = true)
    (htot : ∀ a b, le a b = true ∨ le b a = true) (a : α) :
    ∀ l : List α, List.Pairwise (fun x y => le x y = true) l →
      List.Pairwise (fun x y => le x y = true) (insertLe le a l)
  | [], _ => by simp [insertLe]
  | b :: t, hp => by
    obtain ⟨hb, ht⟩ := List.pairwise_cons.mp hp
    by_cases h : le a b = true
    · simp only [insertLe, if_pos h]
      refine List.pairwise_cons.mpr ⟨?_, hp⟩
      intro x hx
      rcases List.mem_cons.mp hx with rfl | hx2
      · exact h
      · exact htrans a b x h (hb x hx2)
    · simp only [insertLe, if_neg h]
      have hba : le b a = true := (htot a b).resolve_left h
      refine List.pairwise_cons.mpr
        ⟨?_, insertLe_sorted le htrans htot a t ht⟩
      intro x hx
      have hxmem := (insertLe_perm le a t).mem_iff.mp hx
      rcases List.mem_cons.mp hxmem with rfl | hx2
      · exact hba
      · exact hb x hx2

theorem sortLe_sorted {α : Type} (le : α → α → Bool)
    (htrans : ∀ a b c, le a b = true → le b c = true → le a c = true)
    (htot : ∀ a b, le a b = true ∨ le b a = true) :
    ∀ l : List α, List.Pairwise (fun x y => le x y = true) (sortLe le l)
  | [] => List.Pairwise.nil
  | a :: t =>
    insertLe_sorted le htrans htot a (sortLe le t)
      (sortLe_sorted le htrans htot t)

theorem rankLe_total : ∀ a b : ScoredFile, rankLe a b = true ∨ rankLe b a = true := by
  intro a b
  by_cases h : a.score = b.score
  · rcases lexLe_total a.file.data b.file.data with hl | hl
    · exact Or.inl (by simp [rankLe, h, strLe, hl])
    · exact Or.inr (by simp [rankLe, h.symm, strLe, hl])
  · rcases Int.lt_trichotomy a.score b.score with hlt | heq | hgt
    · have hba : ¬ b.score = a.score := fun hh => h hh.symm
      exact Or.inr (by simp only [rankLe, if_neg hba, decide_eq_true_eq]; omega)
    · exact absurd heq h
    · exact Or.inl (by simp only [rankLe, if_neg h, decide_eq_true_eq]; omega)

theorem rankLe_trans : ∀ a b c : ScoredFile,
    rankLe a b = true → rankLe b c = true → rankLe a c = true := by
  intro a b c h1 h2
  by_cases hab : a.score = b.score <;> by_cases hbc : b.score = c.score
  · have hac : a.score = c.score := hab.trans hbc
    simp only [rankLe, if_pos hab] at h1
    simp only [rankLe, if_pos hbc] at h2
    simp only [rankLe, if_pos hac]
    exact lexLe_trans _ _ _ h1 h2
  · simp only [rankLe, if_neg hbc] at h2
    have hcb : c.score < b.score := by simpa using h2
    have hac : ¬ a.score = c.score := by omega
    simp only [rankLe, if_neg hac]
    simp only [decide_eq_true_eq]
    omega
  · simp only [rankLe, if_neg hab] at h1
    have hba : b.score < a.score := by simpa using h1
    have hac : ¬ a.score = c.score := by omega
    simp only [rankLe, if_neg hac, decide_eq_true_eq]
    omega
  · simp only [rankLe, if_neg hab] at h1
    simp only [rankLe, if_neg hbc] at h2
    have hba : b.score < a.score := by simpa using h1
    have hcb : c.score < b.score := by simpa using h2
    have hac : ¬ a.score = c.score := by omega
    simp only [rankLe, if_neg hac, decide_eq_true_eq]
    omega

/-- The keyword fold adds 10 per matching keyword. -/
theorem foldl_score_count (P : String → Bool) :
    ∀ (kws : List String) (init : Int),
      kws.foldl (fun acc kw => if P kw then acc + 10 else acc) init =
        init + 10 * ((kws.filter P).length : Int)
  | [], init => by simp
  | kw :: kws, init => by
    cases h : P kw
    · simp [List.foldl_cons, List.filter_cons, h, foldl_score_count P kws init]
    · simp [List.foldl_cons, List.filter_cons, h, foldl_score_count P kws (init + 10)]
      ring

/-- Claim C8: rankFilesForTask returns a permutation of the files ordered
by score descending — score being 10 per query keyword (lowercased
whitespace token of length > 2) contained in the lowercased relative path,
plus 5 for basename index.ts/index.js/main.ts/main.js, plus 3 for basename
package.json — with ties broken by ascending relative path (the code
compares the full paths, which agree with the relative paths under a common
root); for auth.ts, utils.ts, login.ts and the query "fix authentication
bug", auth.ts ranks first. -/
theorem C8_ranking_order (root : String) (files : List String) (task : String)
    (hroot : ∀ f ∈ files, f.data = root.data ++ '/' :: (relativePath root f).data) :
    (rankFilesForTask root files task).Perm files ∧
    List.Pairwise (fun a b =>
      fileScore root (taskKeywords task) b < fileScore root (taskKeywords task) a ∨
      (fileScore root (taskKeywords task) a = fileScore root (taskKeywords task) b ∧
        lexLe (relativePath root a).data (relativePath root b).data = true))
      (rankFilesForTask root files task) ∧
    (∀ f, fileScore root (taskKeywords task) f =
      10 * (((taskKeywords task).filter
        (fun kw => strIncludes (lowerStr (relativePath root f)) kw)).length : Int) +
      (if basename f = "index.ts" ∨ basename f = "index.js" ∨
          basename f = "main.ts" ∨ basename f = "main.js" then 5 else 0) +
      (if basename f = "package.json" then 3 else 0)) ∧
    rankFilesForTask "" ["auth.ts", "utils.ts", "login.ts"] "fix authentication bug"
      = ["auth.ts", "login.ts", "utils.ts"] := by
  refine ⟨?_, ?_, ?_, by decide⟩
  · unfold rankFilesForTask
    refine ((sortLe_perm rankLe _).map _).trans ?_
    rw [List.map_map]
    have hid : ((fun sf => sf.file) ∘ fun f =>
        ScoredFile.mk f (fileScore root (taskKeywords task) f)) = id := rfl
    rw [hid, List.map_id]
  · unfold rankFilesForTask
    have hsorted := sortLe_sorted rankLe rankLe_trans rankLe_total
      (files.map (fun f => ScoredFile.mk f (fileScore root (taskKeywords task) f)))
    rw [List.pairwise_map]
    refine hsorted.imp_of_mem ?_
    intro a b ha hb hr
    have ha2 := (sortLe_perm rankLe _).mem_iff.mp ha
    have hb2 := (sortLe_perm rankLe _).mem_iff.mp hb
    obtain ⟨fa, hfa, rfl⟩ := List.mem_map.mp ha2
    obtain ⟨fb, hfb, rfl⟩ := List.mem_map.mp hb2
    by_cases hsc : fileScore root (taskKeywords task) fa =
        fileScore root (taskKeywords task) fb
    · right
      refine ⟨hsc, ?_⟩
      simp only [rankLe, if_pos hsc] at hr
      have hda := hroot fa hfa
      have hdb := hroot fb hfb
      unfold strLe at hr
      rw [hda, hdb, List.append_cons root.data '/' (relativePath root fa).data,
        List.append_cons root.data '/' (relativePath root fb).data,
        lexLe_append_left] at hr
      exact hr
    · left
      simp only [rankLe, if_neg hsc, decide_eq_true_eq] at hr
      exact hr
  · intro f
    simp only [fileScore, foldl_score_count]
    by_cases h5 : (basename f = "index.ts" ∨ basename f = "index.js" ∨
        basename f = "main.ts" ∨ basename f = "main.js") <;>
      by_cases h3 : basename f = "package.json" <;>
      · simp [h5, h3]
        try ring

theorem C8_witness :
    rankFilesForTask "" ["auth.ts", "utils.ts", "login.ts"] "fix authentication bug"
      = ["auth.ts", "login.ts", "utils.ts"] :=
  (C8_ranking_order "r" ["r/auth.ts"] "query" (by decide)).2.2.2

theorem getK_some_mem {α : Type} (l : List (String × α)) (q : String) (v : α)
    (h : getK l q = some v) : (q, v) ∈ l := by
  induction l with
  | nil => simp [getK] at h
  | cons hd t ih =>
    obtain ⟨k, w⟩ := hd
    by_cases hk : k = q
    · subst hk
      have hv : w = v := by simpa [getK] using h
      subst hv
      exact List.mem_cons_self _ _
    · have h' : getK t q = some v := by simpa [getK, hk] using h
      exact List.mem_cons_of_mem _ (ih h')

theorem mem_getK_of_nodup {α : Type} (l : List (String × α)) (hW : keysNodup l)
    (k : String) (v : α) (h : (k, v) ∈ l) : getK l k = some v := by
  induction l with
  | nil => simp at h
  | cons hd t ih =>
    obtain ⟨k0, w⟩ := hd
    have h' : (k0 :: t.map Prod.fst).Nodup := by simpa [keysNodup] using hW
    have hkt : k0 ∉ t.map Prod.fst := (List.nodup_cons.mp h').1
    have h2 : keysNodup t := (List.nodup_cons.mp h').2
    rcases List.mem_cons.mp h with heq | hmem
    · have hk : k0 = k := (congrArg Prod.fst heq).symm
      have hv : w = v := (congrArg Prod.snd heq).symm
      subst hk
      subst hv
      simp [getK]
    · by_cases hk : k0 = k
      · subst hk
        exact absurd (List.mem_map_of_mem Prod.fst hmem) hkt
      · simpa [getK, hk] using ih h2 hmem

theorem keysNodup_snapshotFiles (fs : FileSystem) (h : keysNodup fs) :
    keysNodup (snapshotFiles fs) := by
  have : (snapshotFiles fs).map Prod.fst = fs.map Prod.fst := by
    simp [snapshotFiles, List.map_map]
  simpa [keysNodup, this] using h

theorem getK_snapshotFiles (fs : FileSystem) (q : String) :
    getK (snapshotFiles fs) q =
      (getK fs q).map (fun en => FileState.mk q en.mtime en.size) := by
  induction fs with
  | nil => simp [snapshotFiles, getK]
  | cons hd t ih =>
    obtain ⟨k, en⟩ := hd
    by_cases hk : k = q
    · subst hk
      simp [snapshotFiles, getK]
    · simpa [snapshotFiles, getK, hk] using ih

/-- Claim C9: getDelta(fromId) fails with the snapshot-not-found error for
every unknown id; for a stored snapshot it classifies each path: added iff
present now and absent then, modified (carrying the diff of the current
content) iff present in both with differing mtime or size, deleted iff
present then and absent now; every modified entry's diff is the first 1000
characters of the current content followed by "..." exactly when the
content is longer than 1000. -/
theorem C9_get_delta (snapshots : List (String × SnapshotState)) (fs : FileSystem)
    (newId lastSyncId : String) (lastState : SnapshotState)
    (hfound : getK snapshots lastSyncId = some lastState)
    (hfs : keysNodup fs) (hlast : keysNodup lastState.files) :
    (∀ badId, getK snapshots badId = none →
      getDelta snapshots fs newId badId =
        Except.error ("Snapshot " ++ badId ++ " not found")) ∧
    getDelta snapshots fs newId lastSyncId = Except.ok
      ({ fromSyncId := lastSyncId, toSyncId := newId,
         changes := deltaChanges lastState fs },
        setK snapshots newId ⟨newId, snapshotFiles fs⟩) ∧
    (∀ q, FileChange.mk q FileAction.added none ∈ deltaChanges lastState fs ↔
      ((∃ en, getK fs q = some en) ∧ getK lastState.files q = none)) ∧
    (∀ q, FileChange.mk q FileAction.modified (some (generateFileDiff fs q)) ∈
        deltaChanges lastState fs ↔
      (∃ en lf, getK fs q = some en ∧ getK lastState.files q = some lf ∧
        (¬ en.mtime = lf.mtime ∨ ¬ en.size = lf.size))) ∧
    (∀ c ∈ deltaChanges lastState fs, c.action = FileAction.modified →
      ∃ en, getK fs c.path = some en ∧ c.diff = some
        (if en.content.data.length > 1000 then
          String.mk (en.content.data.take 1000) ++ "..." else en.content)) ∧
    (∀ q, FileChange.mk q FileAction.deleted none ∈ deltaChanges lastState fs ↔
      ((∃ lf, getK lastState.files q = some lf) ∧ getK fs q = none)) := by
  refine ⟨?_, ?_, ?_, ?_, ?_, ?_⟩
  · intro badId hb
    simp [getDelta, hb]
  · simp [getDelta, hfound]
  · intro q
    constructor
    · intro hmem
      rcases List.mem_append.mp hmem with hA | hB
      · obtain ⟨e, heMem, hfe⟩ := List.mem_filterMap.mp hA
        rcases hge : getK lastState.files e.1 with _ | lf
        · rw [hge] at hfe
          have hq : e.1 = q := by
            simpa [FileChange.mk.injEq] using hfe
          obtain ⟨a, haMem, hae⟩ := List.mem_map.mp heMem
          have ha1 : a.1 = q := by
            rw [← hq, ← hae]
          have hgq : getK fs a.1 = some a.2 :=
            mem_getK_of_nodup fs hfs a.1 a.2 haMem
          exact ⟨⟨a.2, ha1 ▸ hgq⟩, hq ▸ hge⟩
        · rw [hge] at hfe
          dsimp only at hfe
          by_cases hd : (¬ e.2.mtime = lf.mtime ∨ ¬ e.2.size = lf.size)
          · rw [if_pos hd] at hfe
            simp [FileChange.mk.injEq] at hfe
          · rw [if_neg hd] at hfe
            exact absurd hfe (by simp)
      · obtain ⟨e, heMem, hfe⟩ := List.mem_filterMap.mp hB
        by_cases hc : (getK (snapshotFiles fs) e.1).isNone
        · rw [if_pos hc] at hfe
          simp [FileChange.mk.injEq] at hfe
        · rw [if_neg hc] at hfe
          exact absurd hfe (by simp)
    · rintro ⟨⟨en, hen⟩, hno⟩
      apply List.mem_append.mpr
      left
      apply List.mem_filterMap.mpr
      refine ⟨(q, ⟨q, en.mtime, en.size⟩), ?_, ?_⟩
      · exact List.mem_map.mpr ⟨(q, en), getK_some_mem fs q en hen, rfl⟩
      · simp [hno]
  · intro q
    constructor
    · intro hmem
      rcases List.mem_append.mp hmem with hA | hB
      · obtain ⟨e, heMem, hfe⟩ := List.mem_filterMap.mp hA
        rcases hge : getK lastState.files e.1 with _ | lf
        · rw [hge] at hfe
          simp [FileChange.mk.injEq] at hfe
        · rw [hge] at hfe
          dsimp only at hfe
          by_cases hd : (¬ e.2.mtime = lf.mtime ∨ ¬ e.2.size = lf.size)
          · rw [if_pos hd] at hfe
            have hq : e.1 = q := by
              have := congrArg (fun c => (Option.map FileChange.path c).getD "") hfe
              simpa using this
            obtain ⟨a, haMem, hae⟩ := List.mem_map.mp heMem
            have ha1 : a.1 = q := by rw [← hq, ← hae]
            have hgq : getK fs a.1 = some a.2 :=
              mem_getK_of_nodup fs hfs a.1 a.2 haMem
            have he2 : e.2 = FileState.mk a.1 a.2.mtime a.2.size := by
              rw [← hae]
            refine ⟨a.2, lf, ha1 ▸ hgq, hq ▸ hge, ?_⟩
            rw [he2] at hd
            simpa using hd
          · rw [if_neg hd] at hfe
            exact absurd hfe (by simp)
      · obtain ⟨e, heMem, hfe⟩ := List.mem_filterMap.mp hB
        by_cases hc : (getK (snapshotFiles fs) e.1).isNone
        · rw [if_pos hc] at hfe
          simp [FileChange.mk.injEq] at hfe
        · rw [if_neg hc] at hfe
          exact absurd hfe (by simp)
    · rintro ⟨en, lf, hen, hlf, hd⟩
      apply List.mem_append.mpr
      left
      apply List.mem_filterMap.mpr
      refine ⟨(q, ⟨q, en.mtime, en.size⟩), ?_, ?_⟩
      · exact List.mem_map.mpr ⟨(q, en), getK_some_mem fs q en hen, rfl⟩
      · simp only [hlf]
        rw [if_pos (by simpa using hd)]
  · intro c hmem hact
    rcases List.mem_append.mp hmem with hA | hB
    · obtain ⟨e, heMem, hfe⟩ := List.mem_filterMap.mp hA
      rcases hge : getK lastState.files e.1 with _ | lf
      · rw [hge] at hfe
        dsimp only at hfe
        have hc : c = FileChange.mk e.1 FileAction.added none :=
          (Option.some.inj hfe).symm
        rw [hc] at hact
        exact absurd hact (by simp)
      · rw [hge] at hfe
        dsimp only at hfe
        by_cases hd : (¬ e.2.mtime = lf.mtime ∨ ¬ e.2.size = lf.size)
        · rw [if_pos hd] at hfe
          have hc : c = FileChange.mk e.1 FileAction.modified
              (some (generateFileDiff fs e.1)) := (Option.some.inj hfe).symm
          obtain ⟨a, haMem, hae⟩ := List.mem_map.mp heMem
          have ha1 : a.1 = e.1 := by rw [← hae]
          have hgq : getK fs e.1 = some a.2 :=
            ha1 ▸ mem_getK_of_nodup fs hfs a.1 a.2 haMem
          refine ⟨a.2, ?_, ?_⟩
          · rw [hc]
            exact hgq
          · rw [hc]
            simp [generateFileDiff, hgq]
        · rw [if_neg hd] at hfe
          exact absurd hfe (by simp)
    · obtain ⟨e, heMem, hfe⟩ := List.mem_filterMap.mp hB
      by_cases hc2 : (getK (snapshotFiles fs) e.1).isNone
      · rw [if_pos hc2] at hfe
        have hc : c = FileChange.mk e.1 FileAction.deleted none :=
          (Option.some.inj hfe).symm
        rw [hc] at hact
        exact absurd hact (by simp)
      · rw [if_neg hc2] at hfe
        exact absurd hfe (by simp)
  · intro q
    constructor
    · intro hmem
      rcases List.mem_append.mp hmem with hA | hB
      · obtain ⟨e, heMem, hfe⟩ := List.mem_filterMap.mp hA
        rcases hge : getK lastState.files e.1 with _ | lf
        · rw [hge] at hfe
          simp [FileChange.mk.injEq] at hfe
        · rw [hge] at hfe
          dsimp only at hfe
          by_cases hd : (¬ e.2.mtime = lf.mtime ∨ ¬ e.2.size = lf.size)
          · rw [if_pos hd] at hfe
            simp [FileChange.mk.injEq] at hfe
          · rw [if_neg hd] at hfe
            exact absurd hfe (by simp)
      · obtain ⟨e, heMem, hfe⟩ := List.mem_filterMap.mp hB
        by_cases hc : (getK (snapshotFiles fs) e.1).isNone
        · rw [if_pos hc] at hfe
          have hq : e.1 = q := by
            simpa [FileChange.mk.injEq] using hfe
          have hglast : getK lastState.files q = some e.2 :=
            hq ▸ mem_getK_of_nodup lastState.files hlast e.1 e.2 heMem
          have hnow : getK fs q = none := by
            have h1 : getK (snapshotFiles fs) q = none := by
              rw [← hq]
              exact Option.isNone_iff_eq_none.mp hc
            rw [getK_snapshotFiles] at h1
            exact Option.map_eq_none.mp h1
          exact ⟨⟨e.2, hglast⟩, hnow⟩
        · rw [if_neg hc] at hfe
          exact absurd hfe (by simp)
    · rintro ⟨⟨lf, hlf⟩, hnow⟩
      apply List.mem_append.mpr
      right
      apply List.mem_filterMap.mpr
      refine ⟨(q, lf), getK_some_mem lastState.files q lf hlf, ?_⟩
      have hc : (getK (snapshotFiles fs) q).isNone = true := by
        rw [getK_snapshotFiles, hnow]
        rfl
      rw [if_pos hc]

theorem C9_witness :
    getDelta sampleSnapshots sampleFs "s2" "s1" = Except.ok
      ({ fromSyncId := "s1", toSyncId := "s2",
         changes := deltaChanges sampleLastState sampleFs },
        setK sampleSnapshots "s2" ⟨"s2", snapshotFiles sampleFs⟩) :=
  (C9_get_delta sampleSnapshots sampleFs "s2" "s1" sampleLastState rfl
    (by unfold keysNodup; decide) (by unfold keysNodup; decide)).2.1

theorem except_bind_ok {α β : Type} (a : α) (f : α → Except String β) :
    ((Except.ok a : Except String α) >>= f) = f a := rfl

theorem except_map_ok {α β : Type} (g : α → β) (a : α) :
    Except.map g (Except.ok a : Except String α) = Except.ok (g a) := rfl

theorem parseMessageType_roundtrip (t : MessageType) :
    parseMessageType (Json.str (messageTypeToStr t)) = Except.ok t := by
  cases t <;> rfl

theorem parseTreeEntryType_roundtrip (t : TreeEntryType) :
    parseTreeEntryType (Json.str (treeEntryTypeToStr t)) = Except.ok t := by
  cases t <;> rfl

theorem parseArtifactAction_roundtrip (a : ArtifactAction) :
    parseArtifactAction (Json.str (artifactActionToStr a)) = Except.ok a := by
  cases a <;> rfl

theorem parseTaskScope_roundtrip (s : TaskScope) :
    parseTaskScope (Json.str (taskScopeToStr s)) = Except.ok s := by
  cases s <;> rfl

theorem parseReturnFormat_roundtrip (r : ReturnFormat) :
    parseReturnFormat (Json.str (returnFormatToStr r)) = Except.ok r := by
  cases r <;> rfl

theorem parseListWith_roundtrip {α : Type} (p : Json → Except String α)
    (f : α → Json) (hp : ∀ x, p (f x) = Except.ok x) :
    ∀ l : List α, parseListWith p (l.map f) = Except.ok l
  | [] => rfl
  | x :: t => by
    simp [parseListWith, hp x, except_bind_ok, parseListWith_roundtrip p f hp t]

theorem parseFileChunk_roundtrip (c : FileChunk) :
    parseFileChunk (fileChunkToJson c) = Except.ok c := by
  obtain ⟨path, content, sl, el, lang⟩ := c
  cases sl <;> cases el <;> cases lang <;> rfl

theorem parseArtifact_roundtrip (a : Artifact) :
    parseArtifact (artifactToJson a) = Except.ok a := by
  obtain ⟨path, action, diff⟩ := a
  cases action <;> cases diff <;> rfl

mutual

theorem parseDirectoryTree_roundtrip :
    ∀ t : DirectoryTree, parseDirectoryTree (dtToJson t) = Except.ok t
  | DirectoryTree.node name ty none => by
    simp [dtToJson, parseDirectoryTree, reqField, getK, jStr,
      parseTreeEntryType_roundtrip]
  | DirectoryTree.node name ty (some cs) => by
    have ih := parseDTList_roundtrip cs
    simp [dtToJson, parseDirectoryTree, reqField, getK, jStr,
      parseTreeEntryType_roundtrip, ih]
termination_by t => sizeOf t

theorem parseDTList_roundtrip :
    ∀ l : List DirectoryTree, parseDTList (dtListToJson l) = Except.ok l
  | [] => by simp [dtListToJson, parseDTList]
  | t :: ts => by
    have iht := parseDirectoryTree_roundtrip t
    have ihts := parseDTList_roundtrip ts
    simp [dtListToJson, parseDTList, iht, ihts]
termination_by l => sizeOf l

end

theorem except_pure {α : Type} (a : α) :
    (pure a : Except String α) = Except.ok a := rfl

theorem parseContext_roundtrip (c : Context) :
    parseContext (contextToJson c) = Except.ok c := by
  obtain ⟨files, tree, summary, vars⟩ := c
  cases files <;> cases tree <;> cases summary <;> cases vars <;>
    simp [parseContext, contextToJson, jObjFields, optField, getK, optJField,
      jStr, jArrElems, except_bind_ok, except_map_ok, except_pure,
      parseListWith_roundtrip parseFileChunk fileChunkToJson
        parseFileChunk_roundtrip,
      parseDirectoryTree_roundtrip]

theorem parseTaskRequest_roundtrip (t : TaskRequest) :
    parseTaskRequest (taskRequestToJson t) = Except.ok t := by
  obtain ⟨id, description, scope, constraints, returnFormat, timeout, data⟩ := t
  cases constraints <;> cases returnFormat <;> cases timeout <;> cases data <;>
    simp [parseTaskRequest, taskRequestToJson, jObjFields, reqField, optField,
      getK, optJField, jStr, jNum, jArrElems, except_bind_ok, except_map_ok,
      except_pure, parseTaskScope_roundtrip, parseReturnFormat_roundtrip,
      parseListWith_roundtrip jStr Json.str (fun _ => rfl)]

theorem parseTaskResult_roundtrip (r : TaskResult) :
    parseTaskResult (taskResultToJson r) = Except.ok r := by
  obtain ⟨taskId, success, data, artifacts, followUp, error⟩ := r
  cases taskId <;> cases data <;> cases artifacts <;> cases followUp <;>
    cases error <;>
    simp [parseTaskResult, taskResultToJson, jObjFields, reqField, optField,
      getK, optJField, jStr, jBool, jArrElems, except_bind_ok, except_map_ok,
      except_pure,
      parseListWith_roundtrip parseArtifact artifactToJson
        parseArtifact_roundtrip]

/-- Claim C1: for every message m that satisfies the BridgeMessage envelope
schema (in particular its id passes the uuid check — the only constraint
the schema adds beyond the typing of the fields), deserializing the
serialization of m yields m unchanged, with no field lost.  Serialization
is modelled at the JSON-document level: stringify emits the document
faithfully (omitting only undefined optional fields) and JSON.parse of
that text returns the same document. -/
theorem C1_deserialize_serialize (m : BridgeMessage) (h : isUuid m.id = true) :
    deserializeMessage (serializeMessage m) = Except.ok m := by
  obtain ⟨id, ty, src, ts, ctx, task, res⟩ := m
  simp only at h
  cases ctx <;> cases task <;> cases res <;>
    simp [deserializeMessage, validateMessage, serializeMessage, jObjFields,
      reqField, optField, getK, optJField, jStr, jNum, except_bind_ok,
      except_map_ok, except_pure, h, parseMessageType_roundtrip,
      parseContext_roundtrip, parseTaskRequest_roundtrip,
      parseTaskResult_roundtrip]

theorem C1_witness :
    deserializeMessage (serializeMessage sampleMessage) = Except.ok sampleMessage :=
  C1_deserialize_serialize sampleMessage (by decide)
